import Mathlib

/-!
# MPU6050 driver (ch55xduino): transaction engine and bit-field codec

A shallow embedding of `MPU6050.c`.  The two-wire bus primitives of `SoftI2C.h`
(`I2CStart`, `I2CSend`, ...) are an external library: they are modelled as steps of an
arbitrary device automaton, and every call is logged in a bus trace.  `uint8_t` values are
natural numbers reduced `% 256` where the C code stores or passes them; `int` is the 16-bit
`int` of the 8051 target.
-/

namespace MPU6050

/-! ## Bus transport -/

/-- One call of a bus primitive, as seen on the wire. -/
inductive BusEvent where
  | start
  | restart
  | stop
  | send (byte : Nat)
  | recv (byte : Nat)
  | ack
  | nak
  deriving DecidableEq, Repr

/-- The device on the other end of the bus: how it reacts to each primitive.  `onSend`
gives the acknowledge status returned by `I2CSend` (0 = acknowledged), `onRead` the byte
returned by `I2CRead`. -/
structure Device (σ : Type) where
  onStart : σ → σ
  onRestart : σ → σ
  onStop : σ → σ
  onSend : σ → Nat → σ × Nat
  onRead : σ → σ × Nat
  onAck : σ → σ
  onNak : σ → σ

/-- Everything the driver acts on: the device, the bus trace so far and the lines printed on
the USB serial port. -/
structure World (σ : Type) where
  dev : σ
  trace : List BusEvent
  serial : List String

/-- A world with nothing on the bus yet. -/
def World.boot {σ : Type} (s : σ) : World σ := World.mk s [] []

/-- `void I2CStart()`. -/
def I2CStart {σ : Type} (d : Device σ) (w : World σ) : World σ :=
  World.mk (d.onStart w.dev) (w.trace ++ [BusEvent.start]) w.serial

/-- `void I2CRestart()`. -/
def I2CRestart {σ : Type} (d : Device σ) (w : World σ) : World σ :=
  World.mk (d.onRestart w.dev) (w.trace ++ [BusEvent.restart]) w.serial

/-- `void I2CStop()`. -/
def I2CStop {σ : Type} (d : Device σ) (w : World σ) : World σ :=
  World.mk (d.onStop w.dev) (w.trace ++ [BusEvent.stop]) w.serial

/-- `uint8_t I2CSend(uint8_t)`: the argument is converted to a byte, the result is the
acknowledge status of the device (the driver only compares it with 0). -/
def I2CSend {σ : Type} (d : Device σ) (byte : Nat) (w : World σ) : World σ × Nat :=
  (World.mk (d.onSend w.dev (byte % 256)).1 (w.trace ++ [BusEvent.send (byte % 256)]) w.serial,
   (d.onSend w.dev (byte % 256)).2)

/-- `uint8_t I2CRead()`. -/
def I2CRead {σ : Type} (d : Device σ) (w : World σ) : World σ × Nat :=
  (World.mk (d.onRead w.dev).1 (w.trace ++ [BusEvent.recv ((d.onRead w.dev).2 % 256)]) w.serial,
   (d.onRead w.dev).2 % 256)

/-- `void I2CAck()`. -/
def I2CAck {σ : Type} (d : Device σ) (w : World σ) : World σ :=
  World.mk (d.onAck w.dev) (w.trace ++ [BusEvent.ack]) w.serial

/-- `void I2CNak()`. -/
def I2CNak {σ : Type} (d : Device σ) (w : World σ) : World σ :=
  World.mk (d.onNak w.dev) (w.trace ++ [BusEvent.nak]) w.serial

/-- `USBSerial_println(msg); USBSerial_flush();`: the line goes to the serial log, the bus is
not touched. -/
def USBSerial_println {σ : Type} (msg : String) (w : World σ) : World σ :=
  World.mk w.dev w.trace (w.serial ++ [msg])

/-! ## Transaction engine -/

/-- `RecivedNACK()`: print the diagnostic, flush, release the bus. -/
def RecivedNACK {σ : Type} (d : Device σ) (w : World σ) : World σ :=
  I2CStop d (USBSerial_println "address sent but NACK received" w)

/-- `MPU6050_I2C_ByteWrite(slaveAddr, pBuffer, writeAddr)`.  `mem` is the byte memory that
`pBuffer` points into and `pBuffer` the index it points at. -/
def MPU6050_I2C_ByteWrite {σ : Type} (d : Device σ) (slaveAddr : Nat) (mem : Nat → Nat)
    (pBuffer : Nat) (writeAddr : Nat) (w : World σ) : World σ :=
  let w1 := I2CStart d w
  let r1 := I2CSend d (slaveAddr ||| 0) w1
  if r1.2 ≠ 0 then RecivedNACK d r1.1
  else
    let r2 := I2CSend d writeAddr r1.1
    if r2.2 ≠ 0 then RecivedNACK d r2.1
    else
      let r3 := I2CSend d (mem pBuffer) r2.1
      if r3.2 ≠ 0 then RecivedNACK d r3.1
      else I2CStop d r3.1

/-- The `while (NumByteToRead)` loop of `MPU6050_I2C_BufferRead`.  The first argument is
`NumByteToRead`; the loop variable is decremented once per round, so the recursion is on it.
The result is the world, the memory and the advanced `pBuffer`. -/
def bufferReadLoop {σ : Type} (d : Device σ) :
    Nat → World σ → (Nat → Nat) → Nat → World σ × (Nat → Nat) × Nat
  | 0, w, mem, pBuffer => (w, mem, pBuffer)
  | n + 1, w, mem, pBuffer =>
    let r := I2CRead d w
    let mem1 := Function.update mem pBuffer r.2
    let w1 := if n + 1 = 1 then I2CStop d (I2CNak d r.1) else r.1
    let w2 := I2CAck d w1
    bufferReadLoop d n w2 mem1 (pBuffer + 1)

/-- `MPU6050_I2C_BufferRead(slaveAddr, pBuffer, readAddr, NumByteToRead)`.  Returns the
world and the memory `pBuffer` points into. -/
def MPU6050_I2C_BufferRead {σ : Type} (d : Device σ) (slaveAddr : Nat) (mem : Nat → Nat)
    (pBuffer : Nat) (readAddr : Nat) (NumByteToRead : Nat) (w : World σ) :
    World σ × (Nat → Nat) :=
  let w1 := I2CStart d w
  let r1 := I2CSend d (slaveAddr ||| 0) w1
  if r1.2 ≠ 0 then (RecivedNACK d r1.1, mem)
  else
    let r2 := I2CSend d readAddr r1.1
    if r2.2 ≠ 0 then (RecivedNACK d r2.1, mem)
    else
      let w3 := I2CRestart d r2.1
      let r4 := I2CSend d (slaveAddr ||| 1) w3
      if r4.2 ≠ 0 then (RecivedNACK d r4.1, mem)
      else
        let out := bufferReadLoop d NumByteToRead r4.1 mem pBuffer
        (out.1, out.2.1)

/-! ## Scripted device -/

/-- State of the scripted device: how many bytes it has been sent and how many it has
delivered. -/
structure Script where
  sends : Nat
  reads : Nat
  deriving DecidableEq, Repr

/-- A device that answers the `i`-th byte sent to it with status `ackOf i` and delivers
`rx i` as the `i`-th byte read from it. -/
def scriptDev (ackOf : Nat → Nat) (rx : Nat → Nat) : Device Script where
  onStart := fun s => s
  onRestart := fun s => s
  onStop := fun s => s
  onSend := fun s _ => (Script.mk (s.sends + 1) s.reads, ackOf s.sends)
  onRead := fun s => (Script.mk s.sends (s.reads + 1), rx s.reads)
  onAck := fun s => s
  onNak := fun s => s

/-- Number of acknowledgments in a trace. -/
def countAck (t : List BusEvent) : Nat := t.count BusEvent.ack

/-- Number of bytes received in a trace. -/
def countRecv : List BusEvent → Nat
  | [] => 0
  | BusEvent.recv _ :: t => countRecv t + 1
  | _ :: t => countRecv t

/-! ## Bit-field codec -/

/-- The shift count `bitStart - length + 1`, computed in `int`.  It is not negative when the
run fits in the byte (`length ≤ bitStart + 1`); the C expression is undefined otherwise, and
the model then shifts by zero. -/
def fieldShift (bitStart length : Nat) : Nat :=
  ((bitStart : Int) - (length : Int) + 1).toNat

/-- `uint8_t mask = ((1 << length) - 1) << (bitStart - length + 1);`: the expression is
computed in `int` and truncated to a byte by the initialisation. -/
def fieldMask (bitStart length : Nat) : Nat :=
  (((1 <<< length) - 1) <<< fieldShift bitStart length) % 256

/-- The `int` complement `~x` as a 16-bit pattern. -/
def intNot (x : Nat) : Nat := 0xFFFF ^^^ x

/-- `MPU6050_WriteBits(slaveAddr, regAddr, bitStart, length, data)`.  The local `tmp` is not
initialised in C: `tmp0` is whatever it holds before the read. -/
def MPU6050_WriteBits {σ : Type} (d : Device σ) (slaveAddr regAddr bitStart length data : Nat)
    (tmp0 : Nat) (w : World σ) : World σ :=
  let r := MPU6050_I2C_BufferRead d slaveAddr (fun _ => tmp0) 0 regAddr 1 w
  let tmp := r.2 0
  let mask := fieldMask bitStart length
  let data1 := (data <<< fieldShift bitStart length) % 256
  let data2 := data1 &&& mask
  let tmp1 := (tmp &&& intNot mask) % 256
  let tmp2 := tmp1 ||| data2
  MPU6050_I2C_ByteWrite d slaveAddr (fun _ => tmp2) 0 regAddr r.1

/-- `MPU6050_WriteBit(slaveAddr, regAddr, bitNum, data)`, with `tmp0` as in
`MPU6050_WriteBits`. -/
def MPU6050_WriteBit {σ : Type} (d : Device σ) (slaveAddr regAddr bitNum data : Nat)
    (tmp0 : Nat) (w : World σ) : World σ :=
  let r := MPU6050_I2C_BufferRead d slaveAddr (fun _ => tmp0) 0 regAddr 1 w
  let tmp := r.2 0
  let tmp1 :=
    if data ≠ 0 then (tmp ||| (1 <<< bitNum)) % 256 else (tmp &&& intNot (1 <<< bitNum)) % 256
  MPU6050_I2C_ByteWrite d slaveAddr (fun _ => tmp1) 0 regAddr r.1

/-- `MPU6050_ReadBits(slaveAddr, regAddr, bitStart, length, data)`.  The second component is
the byte stored through `data`. -/
def MPU6050_ReadBits {σ : Type} (d : Device σ) (slaveAddr regAddr bitStart length : Nat)
    (tmp0 : Nat) (w : World σ) : World σ × Nat :=
  let r := MPU6050_I2C_BufferRead d slaveAddr (fun _ => tmp0) 0 regAddr 1 w
  let tmp := r.2 0
  let mask := fieldMask bitStart length
  let tmp1 := tmp &&& mask
  let tmp2 := tmp1 >>> fieldShift bitStart length
  (r.1, tmp2)

/-- `MPU6050_ReadBit(slaveAddr, regAddr, bitNum, data)`.  The second component is the byte
stored through `data`. -/
def MPU6050_ReadBit {σ : Type} (d : Device σ) (slaveAddr regAddr bitNum : Nat)
    (tmp0 : Nat) (w : World σ) : World σ × Nat :=
  let r := MPU6050_I2C_BufferRead d slaveAddr (fun _ => tmp0) 0 regAddr 1 w
  let tmp := r.2 0
  (r.1, (tmp &&& (1 <<< bitNum)) % 256)

/-! ## Raw sample -/

/-- Conversion of an integer to `int16_t` (two's complement wrap). -/
def toInt16 (n : Int) : Int := (n + 32768) % 65536 - 32768

/-- The value of a 16-bit pattern read as a two's-complement number (specification side). -/
def signed16 (x : Nat) : Int := if x < 32768 then (x : Int) else (x : Int) - 65536

/-- The right-hand side `((int16_t) ((uint16_t) tmpBuffer[2 * i] << 8) + tmpBuffer[2 * i + 1])`
as stored into an `int16_t`: the cast applies to the shifted high byte only, the low byte is
added in `int`. -/
def sampleWord (tmpBuffer : Nat → Nat) (i : Nat) : Int :=
  toInt16 (toInt16 ((((tmpBuffer (2 * i) % 65536) <<< 8) % 65536 : Nat) : Int)
    + ((tmpBuffer (2 * i + 1) : Nat) : Int))

/-- `MPU6050_GetRawAccelGyro(AccelGyro)`.  `DEFAULT_ADDRESS` and `RA_ACCEL_XOUT_H` are the
constants of `MPU6050.h`; `tmpBuffer0` is the content of the local array before the read;
`AccelGyro` is the caller's array, returned updated. -/
def MPU6050_GetRawAccelGyro {σ : Type} (d : Device σ) (DEFAULT_ADDRESS RA_ACCEL_XOUT_H : Nat)
    (tmpBuffer0 : Nat → Nat) (AccelGyro : Nat → Int) (w : World σ) : World σ × (Nat → Int) :=
  let r := MPU6050_I2C_BufferRead d DEFAULT_ADDRESS tmpBuffer0 0 RA_ACCEL_XOUT_H 14 w
  let tmpBuffer := r.2
  let acc := [0, 1, 2].foldl (fun out i => Function.update out i (sampleWord tmpBuffer i))
    AccelGyro
  let gyr := [4, 5, 6].foldl (fun out i => Function.update out (i - 1) (sampleWord tmpBuffer i))
    acc
  (r.1, gyr)

/-! ## Simulated register file -/

/-- Where the simulated device is in a transaction. -/
inductive Phase where
  | idle
  | address
  | regIndex
  | writing
  | reading
  deriving DecidableEq, Repr

/-- A simulated sensor: a register file of 256 bytes with an auto-incrementing register
pointer.  `busy` is the number of address bytes it will still leave unacknowledged (0 for a
device that acknowledges every byte). -/
structure RegFile where
  regs : Nat → Nat
  ptr : Nat
  phase : Phase
  busy : Nat

/-- Reaction of the register file to a byte sent by the master.  An address byte selects the
direction by its low bit; the next byte of a write sets the register pointer; further bytes
are stored at the pointer. -/
def RegFile.onSend (s : RegFile) (byte : Nat) : RegFile × Nat :=
  match s.phase with
  | Phase.address =>
    if s.busy ≠ 0 then (RegFile.mk s.regs s.ptr Phase.idle (s.busy - 1), 1)
    else if byte % 2 = 1 then (RegFile.mk s.regs s.ptr Phase.reading 0, 0)
    else (RegFile.mk s.regs s.ptr Phase.regIndex 0, 0)
  | Phase.regIndex => (RegFile.mk s.regs byte Phase.writing s.busy, 0)
  | Phase.writing =>
    (RegFile.mk (Function.update s.regs s.ptr byte) ((s.ptr + 1) % 256) Phase.writing s.busy, 0)
  | Phase.idle => (s, 1)
  | Phase.reading => (s, 1)

/-- Reaction of the register file to a read by the master: in a read transfer it delivers
the register at the pointer and advances; otherwise the idle bus reads as `0xFF`. -/
def RegFile.onRead (s : RegFile) : RegFile × Nat :=
  match s.phase with
  | Phase.reading => (RegFile.mk s.regs ((s.ptr + 1) % 256) Phase.reading s.busy, s.regs s.ptr)
  | _ => (s, 0xFF)

/-- The simulated register file as a bus device. -/
def regDev : Device RegFile where
  onStart := fun s => RegFile.mk s.regs s.ptr Phase.address s.busy
  onRestart := fun s => RegFile.mk s.regs s.ptr Phase.address s.busy
  onStop := fun s => RegFile.mk s.regs s.ptr Phase.idle s.busy
  onSend := RegFile.onSend
  onRead := RegFile.onRead
  onAck := fun s => s
  onNak := fun s => s

/-! ## Device facade -/

/-- The constants of `MPU6050.h` that the facade uses.  The header is not part of the
sources at hand, so the values are parameters. -/
structure Header where
  MPU6050_DEFAULT_ADDRESS : Nat
  MPU6050_RA_WHO_AM_I : Nat
  MPU6050_WHO_AM_I_BIT : Nat
  MPU6050_WHO_AM_I_LENGTH : Nat
  MPU6050_RA_PWR_MGMT_1 : Nat
  MPU6050_PWR1_CLKSEL_BIT : Nat
  MPU6050_PWR1_CLKSEL_LENGTH : Nat
  MPU6050_PWR1_SLEEP_BIT : Nat
  MPU6050_RA_GYRO_CONFIG : Nat
  MPU6050_GCONFIG_FS_SEL_BIT : Nat
  MPU6050_GCONFIG_FS_SEL_LENGTH : Nat
  MPU6050_RA_ACCEL_CONFIG : Nat
  MPU6050_ACONFIG_AFS_SEL_BIT : Nat
  MPU6050_ACONFIG_AFS_SEL_LENGTH : Nat
  MPU6050_CLOCK_PLL_XGYRO : Nat
  MPU6050_GYRO_FS_250 : Nat
  MPU6050_ACCEL_FS_2 : Nat

/-- `MPU6050_GetDeviceID()`.  `tmp0` is the stale content of the local `tmp` of
`MPU6050_ReadBits`; the function's own `tmp` is always overwritten through `data`. -/
def MPU6050_GetDeviceID {σ : Type} (d : Device σ) (h : Header) (tmp0 : Nat) (w : World σ) :
    World σ × Nat :=
  MPU6050_ReadBits d h.MPU6050_DEFAULT_ADDRESS h.MPU6050_RA_WHO_AM_I h.MPU6050_WHO_AM_I_BIT
    h.MPU6050_WHO_AM_I_LENGTH tmp0 w

/-- `MPU6050_TestConnection()`: `MPU6050_GetDeviceID() == 0x34 ? 1 : 0`. -/
def MPU6050_TestConnection {σ : Type} (d : Device σ) (h : Header) (tmp0 : Nat) (w : World σ) :
    World σ × Bool :=
  ((MPU6050_GetDeviceID d h tmp0 w).1, decide ((MPU6050_GetDeviceID d h tmp0 w).2 = 0x34))

/-- `MPU6050_SetClockSource(source)`. -/
def MPU6050_SetClockSource {σ : Type} (d : Device σ) (h : Header) (source : Nat) (tmp0 : Nat)
    (w : World σ) : World σ :=
  MPU6050_WriteBits d h.MPU6050_DEFAULT_ADDRESS h.MPU6050_RA_PWR_MGMT_1 h.MPU6050_PWR1_CLKSEL_BIT
    h.MPU6050_PWR1_CLKSEL_LENGTH source tmp0 w

/-- `MPU6050_SetFullScaleGyroRange(range)`. -/
def MPU6050_SetFullScaleGyroRange {σ : Type} (d : Device σ) (h : Header) (range : Nat)
    (tmp0 : Nat) (w : World σ) : World σ :=
  MPU6050_WriteBits d h.MPU6050_DEFAULT_ADDRESS h.MPU6050_RA_GYRO_CONFIG
    h.MPU6050_GCONFIG_FS_SEL_BIT h.MPU6050_GCONFIG_FS_SEL_LENGTH range tmp0 w

/-- `MPU6050_SetFullScaleAccelRange(range)`. -/
def MPU6050_SetFullScaleAccelRange {σ : Type} (d : Device σ) (h : Header) (range : Nat)
    (tmp0 : Nat) (w : World σ) : World σ :=
  MPU6050_WriteBits d h.MPU6050_DEFAULT_ADDRESS h.MPU6050_RA_ACCEL_CONFIG
    h.MPU6050_ACONFIG_AFS_SEL_BIT h.MPU6050_ACONFIG_AFS_SEL_LENGTH range tmp0 w

/-- `MPU6050_GetSleepModeStatus()`: `tmp == 0x00 ? 0 : 1` on the byte stored by
`MPU6050_ReadBit`. -/
def MPU6050_GetSleepModeStatus {σ : Type} (d : Device σ) (h : Header) (tmp0 : Nat)
    (w : World σ) : World σ × Bool :=
  ((MPU6050_ReadBit d h.MPU6050_DEFAULT_ADDRESS h.MPU6050_RA_PWR_MGMT_1 h.MPU6050_PWR1_SLEEP_BIT
      tmp0 w).1,
   decide ((MPU6050_ReadBit d h.MPU6050_DEFAULT_ADDRESS h.MPU6050_RA_PWR_MGMT_1
      h.MPU6050_PWR1_SLEEP_BIT tmp0 w).2 ≠ 0x00))

/-- `MPU6050_SetSleepModeStatus(NewState)`: the `bool` is passed on as the byte 0 or 1. -/
def MPU6050_SetSleepModeStatus {σ : Type} (d : Device σ) (h : Header) (NewState : Bool)
    (tmp0 : Nat) (w : World σ) : World σ :=
  MPU6050_WriteBit d h.MPU6050_DEFAULT_ADDRESS h.MPU6050_RA_PWR_MGMT_1 h.MPU6050_PWR1_SLEEP_BIT
    (if NewState then 1 else 0) tmp0 w

/-- `MPU6050_Initialize()`.  `stale i` is the stale content of the local `tmp` in the
`i`-th of the four calls. -/
def MPU6050_Initialize {σ : Type} (d : Device σ) (h : Header) (stale : Nat → Nat)
    (w : World σ) : World σ :=
  let w1 := MPU6050_SetClockSource d h h.MPU6050_CLOCK_PLL_XGYRO (stale 0) w
  let w2 := MPU6050_SetFullScaleGyroRange d h h.MPU6050_GYRO_FS_250 (stale 1) w1
  let w3 := MPU6050_SetFullScaleAccelRange d h h.MPU6050_ACCEL_FS_2 (stale 2) w2
  MPU6050_SetSleepModeStatus d h false (stale 3) w3

/-- A sample assignment of the header constants, following the MPU-6050 register map (device
at `0x68`, passed as the address byte `0xD0`; identity in bits 6..1 of register `0x75`).  It
is used for concrete instances only. -/
def sampleHeader : Header where
  MPU6050_DEFAULT_ADDRESS := 0xD0
  MPU6050_RA_WHO_AM_I := 0x75
  MPU6050_WHO_AM_I_BIT := 6
  MPU6050_WHO_AM_I_LENGTH := 6
  MPU6050_RA_PWR_MGMT_1 := 0x6B
  MPU6050_PWR1_CLKSEL_BIT := 2
  MPU6050_PWR1_CLKSEL_LENGTH := 3
  MPU6050_PWR1_SLEEP_BIT := 6
  MPU6050_RA_GYRO_CONFIG := 0x1B
  MPU6050_GCONFIG_FS_SEL_BIT := 4
  MPU6050_GCONFIG_FS_SEL_LENGTH := 2
  MPU6050_RA_ACCEL_CONFIG := 0x1C
  MPU6050_ACONFIG_AFS_SEL_BIT := 4
  MPU6050_ACONFIG_AFS_SEL_LENGTH := 2
  MPU6050_CLOCK_PLL_XGYRO := 1
  MPU6050_GYRO_FS_250 := 0
  MPU6050_ACCEL_FS_2 := 0

/-- What is assumed of the header constants: the address byte is an even byte (write
direction), the register indices are bytes, each of the three field descriptors lies within
a byte and its value fits the field, the sleep bit is one of 0..7, and the
power-management, gyro configuration and accel configuration registers are three different
registers. -/
def Header.WellFormed (h : Header) : Prop :=
  h.MPU6050_DEFAULT_ADDRESS < 256 ∧ h.MPU6050_DEFAULT_ADDRESS % 2 = 0 ∧
  h.MPU6050_RA_PWR_MGMT_1 < 256 ∧ h.MPU6050_RA_GYRO_CONFIG < 256 ∧
  h.MPU6050_RA_ACCEL_CONFIG < 256 ∧
  (1 ≤ h.MPU6050_PWR1_CLKSEL_LENGTH ∧
    h.MPU6050_PWR1_CLKSEL_LENGTH - 1 ≤ h.MPU6050_PWR1_CLKSEL_BIT ∧
    h.MPU6050_PWR1_CLKSEL_BIT ≤ 7 ∧
    h.MPU6050_CLOCK_PLL_XGYRO < 2 ^ h.MPU6050_PWR1_CLKSEL_LENGTH) ∧
  (1 ≤ h.MPU6050_GCONFIG_FS_SEL_LENGTH ∧
    h.MPU6050_GCONFIG_FS_SEL_LENGTH - 1 ≤ h.MPU6050_GCONFIG_FS_SEL_BIT ∧
    h.MPU6050_GCONFIG_FS_SEL_BIT ≤ 7 ∧
    h.MPU6050_GYRO_FS_250 < 2 ^ h.MPU6050_GCONFIG_FS_SEL_LENGTH) ∧
  (1 ≤ h.MPU6050_ACONFIG_AFS_SEL_LENGTH ∧
    h.MPU6050_ACONFIG_AFS_SEL_LENGTH - 1 ≤ h.MPU6050_ACONFIG_AFS_SEL_BIT ∧
    h.MPU6050_ACONFIG_AFS_SEL_BIT ≤ 7 ∧
    h.MPU6050_ACCEL_FS_2 < 2 ^ h.MPU6050_ACONFIG_AFS_SEL_LENGTH) ∧
  h.MPU6050_PWR1_SLEEP_BIT ≤ 7 ∧
  h.MPU6050_RA_GYRO_CONFIG ≠ h.MPU6050_RA_PWR_MGMT_1 ∧
  h.MPU6050_RA_ACCEL_CONFIG ≠ h.MPU6050_RA_PWR_MGMT_1 ∧
  h.MPU6050_RA_ACCEL_CONFIG ≠ h.MPU6050_RA_GYRO_CONFIG

/-! ## Trace observations -/

/-- Number of stop signals in a trace. -/
def countStop (t : List BusEvent) : Nat := t.count BusEvent.stop

/-- Number of bytes sent in a trace. -/
def countSend : List BusEvent → Nat
  | [] => 0
  | BusEvent.send _ :: t => countSend t + 1
  | _ :: t => countSend t

/-- The bus trace of one read-modify-write of a register on an acknowledging device: the
single-byte read that delivers `fetched`, then the write of `written`. -/
def rmwTrace (slaveAddr regAddr fetched written : Nat) : List BusEvent :=
  [BusEvent.start, BusEvent.send slaveAddr, BusEvent.send regAddr, BusEvent.restart,
   BusEvent.send (slaveAddr ||| 1), BusEvent.recv fetched, BusEvent.nak, BusEvent.stop,
   BusEvent.ack, BusEvent.start, BusEvent.send slaveAddr, BusEvent.send regAddr,
   BusEvent.send written, BusEvent.stop]

/-- The right-aligned content of the field `msb - length + 1 .. msb` of a byte
(specification side). -/
def fieldOf (byte msb length : Nat) : Nat := byte / 2 ^ (msb + 1 - length) % 2 ^ length

/-! ## Properties of the transaction engine -/


theorem countRecv_append (a b : List BusEvent) : countRecv (a ++ b) = countRecv a + countRecv b := by
  induction a with
  | nil => simp [countRecv]
  | cons e t ih => cases e <;> simp [countRecv, ih]; omega

theorem countAck_append (a b : List BusEvent) : countAck (a ++ b) = countAck a + countAck b := by
  simp [countAck]

theorem bufferReadLoop_script (ackOf rx : Nat → Nat) (n : Nat) :
    ∀ (w : World Script) (mem : Nat → Nat) (p : Nat),
      (bufferReadLoop (scriptDev ackOf rx) n w mem p).1.dev = Script.mk w.dev.sends (w.dev.reads + n) ∧
      (bufferReadLoop (scriptDev ackOf rx) n w mem p).1.serial = w.serial ∧
      countRecv (bufferReadLoop (scriptDev ackOf rx) n w mem p).1.trace = countRecv w.trace + n ∧
      countAck (bufferReadLoop (scriptDev ackOf rx) n w mem p).1.trace = countAck w.trace + n ∧
      (∀ j, (bufferReadLoop (scriptDev ackOf rx) n w mem p).2.1 j =
        if p ≤ j ∧ j < p + n then rx (w.dev.reads + (j - p)) % 256 else mem j) := by
  induction n with
  | zero =>
    intro w mem p
    refine ⟨by simp [bufferReadLoop], by simp [bufferReadLoop], by simp [bufferReadLoop],
      by simp [bufferReadLoop], ?_⟩
    intro j
    rw [if_neg (by omega)]
    simp [bufferReadLoop]
  | succ n ih =>
    intro w mem p
    simp only [bufferReadLoop]
    obtain ⟨h1, h2, h3, h4, h5⟩ := ih
      (I2CAck (scriptDev ackOf rx)
        (if n + 1 = 1 then I2CStop (scriptDev ackOf rx) (I2CNak (scriptDev ackOf rx) (I2CRead (scriptDev ackOf rx) w).1)
          else (I2CRead (scriptDev ackOf rx) w).1))
      (Function.update mem p (I2CRead (scriptDev ackOf rx) w).2) (p + 1)
    refine ⟨?_, ?_, ?_, ?_, ?_⟩
    · rw [h1]; split <;> simp [I2CAck, I2CStop, I2CNak, I2CRead, scriptDev] <;> omega
    · rw [h2]; split <;> simp [I2CAck, I2CStop, I2CNak, I2CRead, scriptDev]
    · rw [h3]; split <;> simp [I2CAck, I2CStop, I2CNak, I2CRead, countRecv_append, countRecv] <;> omega
    · rw [h4]; split <;> simp [I2CAck, I2CStop, I2CNak, I2CRead, countAck] <;> omega
    · intro j
      rw [h5]
      by_cases hj : j = p
      · subst hj
        simp [I2CAck, I2CStop, I2CNak, I2CRead, scriptDev]
      · have : (I2CAck (scriptDev ackOf rx)
          (if n + 1 = 1 then I2CStop (scriptDev ackOf rx) (I2CNak (scriptDev ackOf rx) (I2CRead (scriptDev ackOf rx) w).1)
            else (I2CRead (scriptDev ackOf rx) w).1)).dev.reads = w.dev.reads + 1 := by
          split <;> simp [I2CAck, I2CStop, I2CNak, I2CRead, scriptDev]
        rw [this, Function.update_noteq hj]
        by_cases hlt : p + 1 ≤ j ∧ j < p + 1 + n
        · have hlt2 : p ≤ j ∧ j < p + (n + 1) := by omega
          rw [if_pos hlt, if_pos hlt2]
          congr 2
          omega
        · have hlt2 : ¬ (p ≤ j ∧ j < p + (n + 1)) := by omega
          rw [if_neg hlt, if_neg hlt2]


theorem bufferReadLoop_tail {σ : Type} (d : Device σ) (n : Nat) :
    ∀ (w : World σ) (mem : Nat → Nat) (p : Nat), 1 ≤ n →
      ∃ t, (bufferReadLoop d n w mem p).1.trace
        = w.trace ++ t ++ [BusEvent.nak, BusEvent.stop, BusEvent.ack] := by
  induction n with
  | zero => intro w mem p h; omega
  | succ n ih =>
    intro w mem p _
    simp only [bufferReadLoop]
    by_cases hn : n = 0
    · subst hn
      refine ⟨[BusEvent.recv ((d.onRead w.dev).2 % 256)], ?_⟩
      simp [bufferReadLoop, I2CAck, I2CStop, I2CNak, I2CRead]
    · obtain ⟨t, ht⟩ := ih (I2CAck d (if n + 1 = 1 then I2CStop d (I2CNak d (I2CRead d w).1)
          else (I2CRead d w).1)) (Function.update mem p (I2CRead d w).2) (p + 1) (by omega)
      refine ⟨[BusEvent.recv ((d.onRead w.dev).2 % 256), BusEvent.ack] ++ t, ?_⟩
      rw [ht]
      simp [hn, I2CAck, I2CRead]

theorem bufferRead_script_acked (ackOf rx : Nat → Nat) (a reg k : Nat) (mem : Nat → Nat)
    (p : Nat) (w : World Script) (h0 : ackOf w.dev.sends = 0) (h1 : ackOf (w.dev.sends + 1) = 0)
    (h2 : ackOf (w.dev.sends + 2) = 0) :
    MPU6050_I2C_BufferRead (scriptDev ackOf rx) a mem p reg k w =
      ((bufferReadLoop (scriptDev ackOf rx) k
          (World.mk (Script.mk (w.dev.sends + 3) w.dev.reads)
            (w.trace ++ [BusEvent.start, BusEvent.send (a % 256), BusEvent.send (reg % 256),
              BusEvent.restart, BusEvent.send ((a ||| 1) % 256)]) w.serial) mem p).1,
       (bufferReadLoop (scriptDev ackOf rx) k
          (World.mk (Script.mk (w.dev.sends + 3) w.dev.reads)
            (w.trace ++ [BusEvent.start, BusEvent.send (a % 256), BusEvent.send (reg % 256),
              BusEvent.restart, BusEvent.send ((a ||| 1) % 256)]) w.serial) mem p).2.1) := by
  simp [MPU6050_I2C_BufferRead, I2CStart, I2CSend, I2CRestart, scriptDev, h0, h1, h2]

theorem byteWrite_script_acked (ackOf rx : Nat → Nat) (a reg : Nat) (mem : Nat → Nat)
    (p : Nat) (w : World Script) (h0 : ackOf w.dev.sends = 0) (h1 : ackOf (w.dev.sends + 1) = 0)
    (h2 : ackOf (w.dev.sends + 2) = 0) :
    MPU6050_I2C_ByteWrite (scriptDev ackOf rx) a mem p reg w =
      World.mk (Script.mk (w.dev.sends + 3) w.dev.reads)
        (w.trace ++ [BusEvent.start, BusEvent.send (a % 256), BusEvent.send (reg % 256),
          BusEvent.send (mem p % 256), BusEvent.stop]) w.serial := by
  simp [MPU6050_I2C_ByteWrite, I2CStart, I2CSend, I2CStop, scriptDev, h0, h1, h2]

theorem readByte_script_acked (ackOf rx : Nat → Nat) (a reg : Nat) (mem : Nat → Nat)
    (p : Nat) (w : World Script) (h0 : ackOf w.dev.sends = 0) (h1 : ackOf (w.dev.sends + 1) = 0)
    (h2 : ackOf (w.dev.sends + 2) = 0) :
    MPU6050_I2C_BufferRead (scriptDev ackOf rx) a mem p reg 1 w =
      (World.mk (Script.mk (w.dev.sends + 3) (w.dev.reads + 1))
        (w.trace ++ [BusEvent.start, BusEvent.send (a % 256), BusEvent.send (reg % 256),
          BusEvent.restart, BusEvent.send ((a ||| 1) % 256), BusEvent.recv (rx w.dev.reads % 256),
          BusEvent.nak, BusEvent.stop, BusEvent.ack]) w.serial,
       Function.update mem p (rx w.dev.reads % 256)) := by
  rw [bufferRead_script_acked ackOf rx a reg 1 mem p w h0 h1 h2]
  simp [bufferReadLoop, I2CRead, I2CNak, I2CStop, I2CAck, scriptDev]

/-! ## Block read, buffer and abort -/


/-- Every block read of at least one byte acknowledges each byte, the last one included, and
its trace ends with nak, stop, ack. -/
theorem bufferRead_acks_every_byte (ackOf rx : Nat → Nat) (slaveAddr readAddr k : Nat)
    (mem : Nat → Nat) (p : Nat) (hk : 1 ≤ k)
    (hack : ackOf 0 = 0 ∧ ackOf 1 = 0 ∧ ackOf 2 = 0) :
    countAck (MPU6050_I2C_BufferRead (scriptDev ackOf rx) slaveAddr mem p readAddr k
        (World.boot (Script.mk 0 0))).1.trace = k ∧
    ∃ t, (MPU6050_I2C_BufferRead (scriptDev ackOf rx) slaveAddr mem p readAddr k
        (World.boot (Script.mk 0 0))).1.trace = t ++ [BusEvent.nak, BusEvent.stop, BusEvent.ack] := by
  rw [bufferRead_script_acked ackOf rx slaveAddr readAddr k mem p _ hack.1 hack.2.1 hack.2.2]
  constructor
  · rw [(bufferReadLoop_script ackOf rx k _ mem p).2.2.2.1]
    simp [World.boot, countAck]
  · obtain ⟨t, ht⟩ := bufferReadLoop_tail (scriptDev ackOf rx) k
      (World.mk (Script.mk ((World.boot (Script.mk 0 0)).dev.sends + 3)
        (World.boot (Script.mk 0 0)).dev.reads)
        ((World.boot (Script.mk 0 0)).trace ++ [BusEvent.start, BusEvent.send (slaveAddr % 256),
          BusEvent.send (readAddr % 256), BusEvent.restart,
          BusEvent.send ((slaveAddr ||| 1) % 256)]) (World.boot (Script.mk 0 0)).serial) mem p hk
    exact ⟨_, ht⟩

/-- C1 (the code departs from the claim): a one-byte block read from an acknowledging device
that delivers `0x42` produces the trace start, send, send, restart, send, recv, nak, stop,
ack.  One acknowledgment is sent where the claim allows `k - 1 = 0`, and the trace ends with
that acknowledgment instead of nak, stop. -/
theorem bufferRead_one_byte_trace :
    (MPU6050_I2C_BufferRead (scriptDev (fun _ => 0) (fun _ => 0x42)) 0xD0 (fun _ => 0) 0 0x75 1
        (World.boot (Script.mk 0 0))).1.trace
      = [BusEvent.start, BusEvent.send 0xD0, BusEvent.send 0x75, BusEvent.restart,
         BusEvent.send 0xD1, BusEvent.recv 0x42, BusEvent.nak, BusEvent.stop, BusEvent.ack] ∧
    countAck (MPU6050_I2C_BufferRead (scriptDev (fun _ => 0) (fun _ => 0x42)) 0xD0 (fun _ => 0) 0
        0x75 1 (World.boot (Script.mk 0 0))).1.trace = 1 := by
  decide

/-- C2: for a 16-bit count `k` and a device that acknowledges the three addressing bytes and
streams the bytes `rx 0 .. rx (k-1)`, the block read performs exactly `k` receives, stores
`rx i` at buffer position `i` for every `i < k`, and leaves every other position (before the
buffer and from index `k` on) as it was. -/
theorem bufferRead_fills_buffer (ackOf rx : Nat → Nat) (slaveAddr readAddr k : Nat)
    (mem : Nat → Nat) (pBuffer : Nat) (_hk : k < 65536)
    (hack : ackOf 0 = 0 ∧ ackOf 1 = 0 ∧ ackOf 2 = 0) (hrx : ∀ i, i < k → rx i < 256) :
    countRecv (MPU6050_I2C_BufferRead (scriptDev ackOf rx) slaveAddr mem pBuffer readAddr k
        (World.boot (Script.mk 0 0))).1.trace = k ∧
    (∀ i, i < k → (MPU6050_I2C_BufferRead (scriptDev ackOf rx) slaveAddr mem pBuffer readAddr k
        (World.boot (Script.mk 0 0))).2 (pBuffer + i) = rx i) ∧
    (∀ j, (j < pBuffer ∨ pBuffer + k ≤ j) →
      (MPU6050_I2C_BufferRead (scriptDev ackOf rx) slaveAddr mem pBuffer readAddr k
        (World.boot (Script.mk 0 0))).2 j = mem j) := by
  rw [bufferRead_script_acked ackOf rx slaveAddr readAddr k mem pBuffer _ hack.1 hack.2.1 hack.2.2]
  obtain ⟨-, -, h3, -, h5⟩ := bufferReadLoop_script ackOf rx k
      (World.mk (Script.mk ((World.boot (Script.mk 0 0)).dev.sends + 3)
        (World.boot (Script.mk 0 0)).dev.reads)
        ((World.boot (Script.mk 0 0)).trace ++ [BusEvent.start, BusEvent.send (slaveAddr % 256),
          BusEvent.send (readAddr % 256), BusEvent.restart,
          BusEvent.send ((slaveAddr ||| 1) % 256)]) (World.boot (Script.mk 0 0)).serial)
      mem pBuffer
  refine ⟨?_, ?_, ?_⟩
  · rw [h3]; simp [World.boot, countRecv]
  · intro i hi
    dsimp only
    rw [h5, if_pos (by omega)]
    simp only [World.boot, Nat.add_sub_cancel_left, Nat.zero_add]
    exact Nat.mod_eq_of_lt (hrx i hi)
  · intro j hj
    dsimp only
    rw [h5, if_neg (by omega)]

/-- Witness for C2: three bytes read into a buffer at index 5. -/
theorem bufferRead_fills_buffer_witness :
    countRecv (MPU6050_I2C_BufferRead (scriptDev (fun _ => 0) (fun i => 0x40 + i)) 0xD0
        (fun _ => 0xEE) 5 0x3B 3 (World.boot (Script.mk 0 0))).1.trace = 3 ∧
    (∀ i, i < 3 → (MPU6050_I2C_BufferRead (scriptDev (fun _ => 0) (fun i => 0x40 + i)) 0xD0
        (fun _ => 0xEE) 5 0x3B 3 (World.boot (Script.mk 0 0))).2 (5 + i) = 0x40 + i) ∧
    (∀ j, (j < 5 ∨ 5 + 3 ≤ j) →
      (MPU6050_I2C_BufferRead (scriptDev (fun _ => 0) (fun i => 0x40 + i)) 0xD0
        (fun _ => 0xEE) 5 0x3B 3 (World.boot (Script.mk 0 0))).2 j = 0xEE) :=
  bufferRead_fills_buffer (fun _ => 0) (fun i => 0x40 + i) 0xD0 0x3B 3 (fun _ => 0xEE) 5
    (by decide) ⟨rfl, rfl, rfl⟩ (by intro i hi; show 0x40 + i < 256; omega)


/-- C5: whatever the acknowledgment pattern, when the `j`-th addressing send is the first
one that is not acknowledged, the stop signal is the next bus event and the last one.  For
`j = 0` both transactions have the trace start, send(address), stop; for `j = 1` both have
start, send(address), send(register), stop; for `j = 2` the read has start, send(address),
send(register), restart, send(address with read bit), stop. -/
theorem addressing_nack_aborts (ackOf rx : Nat → Nat) (slaveAddr regAddr k : Nat)
    (mem : Nat → Nat) (pBuffer j : Nat) (hA : slaveAddr < 256) (hR : regAddr < 256)
    (hj : j < 3) (hpre : ∀ i, i < j → ackOf i = 0) (hnack : ackOf j ≠ 0) :
    match j with
    | 0 =>
      (MPU6050_I2C_ByteWrite (scriptDev ackOf rx) slaveAddr mem pBuffer regAddr
          (World.boot (Script.mk 0 0))).trace
        = [BusEvent.start, BusEvent.send slaveAddr, BusEvent.stop] ∧
      (MPU6050_I2C_BufferRead (scriptDev ackOf rx) slaveAddr mem pBuffer regAddr k
          (World.boot (Script.mk 0 0))).1.trace
        = [BusEvent.start, BusEvent.send slaveAddr, BusEvent.stop]
    | 1 =>
      (MPU6050_I2C_ByteWrite (scriptDev ackOf rx) slaveAddr mem pBuffer regAddr
          (World.boot (Script.mk 0 0))).trace
        = [BusEvent.start, BusEvent.send slaveAddr, BusEvent.send regAddr, BusEvent.stop] ∧
      (MPU6050_I2C_BufferRead (scriptDev ackOf rx) slaveAddr mem pBuffer regAddr k
          (World.boot (Script.mk 0 0))).1.trace
        = [BusEvent.start, BusEvent.send slaveAddr, BusEvent.send regAddr, BusEvent.stop]
    | _ =>
      (MPU6050_I2C_BufferRead (scriptDev ackOf rx) slaveAddr mem pBuffer regAddr k
          (World.boot (Script.mk 0 0))).1.trace
        = [BusEvent.start, BusEvent.send slaveAddr, BusEvent.send regAddr, BusEvent.restart,
           BusEvent.send (slaveAddr ||| 1), BusEvent.stop] := by
  have hA1 : (slaveAddr ||| 1) % 256 = slaveAddr ||| 1 :=
    Nat.mod_eq_of_lt (Nat.or_lt_two_pow (n := 8) hA (by norm_num))
  match j, hj, hpre, hnack with
  | 0, _, _, hnack =>
    simp [MPU6050_I2C_ByteWrite, MPU6050_I2C_BufferRead, I2CStart, I2CSend, RecivedNACK,
      I2CStop, USBSerial_println, scriptDev, World.boot, hnack, Nat.mod_eq_of_lt hA]
  | 1, _, hpre, hnack =>
    have h0 : ackOf 0 = 0 := hpre 0 (by omega)
    simp [MPU6050_I2C_ByteWrite, MPU6050_I2C_BufferRead, I2CStart, I2CSend, RecivedNACK,
      I2CStop, USBSerial_println, scriptDev, World.boot, hnack, h0, Nat.mod_eq_of_lt hA,
      Nat.mod_eq_of_lt hR]
  | 2, _, hpre, hnack =>
    have h0 : ackOf 0 = 0 := hpre 0 (by omega)
    have h1 : ackOf 1 = 0 := hpre 1 (by omega)
    simp [MPU6050_I2C_BufferRead, I2CStart, I2CSend, I2CRestart, RecivedNACK,
      I2CStop, USBSerial_println, scriptDev, World.boot, hnack, h0, h1, Nat.mod_eq_of_lt hA,
      Nat.mod_eq_of_lt hR, hA1]

/-- Witness for C5: the device acknowledges the address and refuses the register index. -/
theorem addressing_nack_aborts_witness :
    (MPU6050_I2C_ByteWrite (scriptDev (fun i => if i = 1 then 1 else 0) (fun _ => 0)) 0xD0
        (fun _ => 0x55) 0 0x6B (World.boot (Script.mk 0 0))).trace
      = [BusEvent.start, BusEvent.send 0xD0, BusEvent.send 0x6B, BusEvent.stop] ∧
    (MPU6050_I2C_BufferRead (scriptDev (fun i => if i = 1 then 1 else 0) (fun _ => 0)) 0xD0
        (fun _ => 0x55) 0 0x6B 14 (World.boot (Script.mk 0 0))).1.trace
      = [BusEvent.start, BusEvent.send 0xD0, BusEvent.send 0x6B, BusEvent.stop] :=
  addressing_nack_aborts (fun i => if i = 1 then 1 else 0) (fun _ => 0) 0xD0 0x6B 14
    (fun _ => 0x55) 0 1 (by decide) (by decide) (by decide)
    (by intro i hi; have : i = 0 := by omega
        subst this; rfl) (by decide)

/-! ## Properties of the bit-field codec -/


theorem fieldShift_eq {bitStart length : Nat} (h : length ≤ bitStart + 1) :
    fieldShift bitStart length = bitStart + 1 - length := by
  unfold fieldShift; omega

theorem testBit_byte (x i : Nat) : (x % 256).testBit i = (decide (i < 8) && x.testBit i) := by
  have h : (256 : Nat) = 2 ^ 8 := by norm_num
  rw [h, Nat.testBit_mod_two_pow]

theorem testBit_of_byte {x : Nat} (hx : x < 256) {i : Nat} (hi : 8 ≤ i) : x.testBit i = false := by
  apply Nat.testBit_lt_two_pow
  calc x < 2 ^ 8 := by simpa using hx
    _ ≤ 2 ^ i := Nat.pow_le_pow_right (by norm_num) hi

theorem testBit_intNot (x i : Nat) : (intNot x).testBit i = (decide (i < 16) ^^ x.testBit i) := by
  have h : (0xFFFF : Nat) = 2 ^ 16 - 1 := by norm_num
  unfold intNot
  rw [h, Nat.testBit_xor, Nat.testBit_two_pow_sub_one]

theorem testBit_fieldMask {bitStart length : Nat} (i : Nat) (h2 : length ≤ bitStart + 1)
    (h3 : bitStart ≤ 7) :
    (fieldMask bitStart length).testBit i
      = decide (bitStart + 1 - length ≤ i ∧ i ≤ bitStart) := by
  unfold fieldMask
  rw [fieldShift_eq h2, testBit_byte, Nat.testBit_shiftLeft, Nat.one_shiftLeft,
    Nat.testBit_two_pow_sub_one]
  rw [Bool.eq_iff_iff]
  simp only [Bool.and_eq_true, decide_eq_true_eq, ge_iff_le]
  omega

theorem fieldMask_no_truncation {bitStart length : Nat} (h2 : length ≤ bitStart + 1)
    (h3 : bitStart ≤ 7) :
    ((1 <<< length) - 1) <<< fieldShift bitStart length < 256 := by
  rw [fieldShift_eq h2, Nat.one_shiftLeft, Nat.shiftLeft_eq]
  have h1 : 0 < 2 ^ length := Nat.pow_pos (by norm_num)
  have h4 : 2 ^ length * 2 ^ (bitStart + 1 - length) = 2 ^ (bitStart + 1) := by
    rw [← Nat.pow_add]; congr 1; omega
  have h5 : 2 ^ (bitStart + 1) ≤ 2 ^ 8 := Nat.pow_le_pow_right (by norm_num) (by omega)
  have h6 : 0 < 2 ^ (bitStart + 1 - length) := Nat.pow_pos (by norm_num)
  have h7 : (2 ^ length - 1) * 2 ^ (bitStart + 1 - length)
      < 2 ^ length * 2 ^ (bitStart + 1 - length) :=
    Nat.mul_lt_mul_of_pos_right (by omega) h6
  have h8 : (2 : Nat) ^ 8 = 256 := by norm_num
  omega

/-- What `MPU6050_ReadBits` extracts from a byte. -/
theorem extract_field {bitStart length : Nat} (r : Nat) (h2 : length ≤ bitStart + 1)
    (h3 : bitStart ≤ 7) :
    (r &&& fieldMask bitStart length) >>> fieldShift bitStart length
      = r / 2 ^ (bitStart + 1 - length) % 2 ^ length := by
  apply Nat.eq_of_testBit_eq
  intro i
  rw [Nat.testBit_shiftRight, Nat.testBit_and, testBit_fieldMask _ h2 h3, fieldShift_eq h2,
    Nat.testBit_mod_two_pow, ← Nat.shiftRight_eq_div_pow, Nat.testBit_shiftRight]
  by_cases hi : i < length
  · have : bitStart + 1 - length ≤ bitStart + 1 - length + i ∧
        bitStart + 1 - length + i ≤ bitStart := by omega
    rw [decide_eq_true this, decide_eq_true hi, Bool.and_true, Bool.true_and]
  · have : ¬ (bitStart + 1 - length ≤ bitStart + 1 - length + i ∧
        bitStart + 1 - length + i ≤ bitStart) := by omega
    rw [decide_eq_false this, decide_eq_false hi, Bool.and_false, Bool.false_and]

/-- Bits of the byte that `MPU6050_WriteBits` writes back. -/
theorem testBit_inject_field {bitStart length : Nat} (r v i : Nat) (hr : r < 256)
    (h2 : length ≤ bitStart + 1) (h3 : bitStart ≤ 7) :
    ((r &&& intNot (fieldMask bitStart length)) % 256 |||
        ((v <<< fieldShift bitStart length) % 256 &&& fieldMask bitStart length)).testBit i
      = if bitStart + 1 - length ≤ i ∧ i ≤ bitStart then v.testBit (i - (bitStart + 1 - length))
        else r.testBit i := by
  rw [Nat.testBit_or, testBit_byte, Nat.testBit_and, testBit_intNot, Nat.testBit_and,
    testBit_byte, Nat.testBit_shiftLeft, testBit_fieldMask _ h2 h3, fieldShift_eq h2]
  by_cases hrun : bitStart + 1 - length ≤ i ∧ i ≤ bitStart
  · have h8 : i < 8 := by omega
    have h16 : i < 16 := by omega
    rw [if_pos hrun, decide_eq_true hrun, decide_eq_true h8, decide_eq_true h16,
      decide_eq_true (show i ≥ bitStart + 1 - length from hrun.1)]
    simp
  · rw [if_neg hrun, decide_eq_false hrun]
    by_cases h8 : i < 8
    · have h16 : i < 16 := by omega
      rw [decide_eq_true h8, decide_eq_true h16]
      simp
    · rw [decide_eq_false h8]
      simp [testBit_of_byte hr (Nat.le_of_not_lt h8)]

theorem inject_field_lt (r v bitStart length : Nat) :
    (r &&& intNot (fieldMask bitStart length)) % 256 |||
        ((v <<< fieldShift bitStart length) % 256 &&& fieldMask bitStart length) < 256 := by
  have h : (256 : Nat) = 2 ^ 8 := by norm_num
  rw [h]
  apply Nat.or_lt_two_pow
  · exact Nat.mod_lt _ (by norm_num)
  · apply Nat.and_lt_two_pow
    unfold fieldMask
    rw [h]
    exact Nat.mod_lt _ (by norm_num)

/-- Writing a field and extracting it again gives the value modulo the field width. -/
theorem extract_inject_field {bitStart length : Nat} (r v : Nat) (hr : r < 256)
    (h2 : length ≤ bitStart + 1) (h3 : bitStart ≤ 7) :
    (((r &&& intNot (fieldMask bitStart length)) % 256 |||
        ((v <<< fieldShift bitStart length) % 256 &&& fieldMask bitStart length))
      &&& fieldMask bitStart length) >>> fieldShift bitStart length = v % 2 ^ length := by
  apply Nat.eq_of_testBit_eq
  intro i
  rw [Nat.testBit_shiftRight, Nat.testBit_and, testBit_inject_field r v _ hr h2 h3,
    testBit_fieldMask _ h2 h3, fieldShift_eq h2, Nat.testBit_mod_two_pow]
  by_cases hi : i < length
  · have : bitStart + 1 - length ≤ bitStart + 1 - length + i ∧
        bitStart + 1 - length + i ≤ bitStart := by omega
    rw [if_pos this, decide_eq_true this, decide_eq_true hi, Bool.and_true, Bool.true_and,
      Nat.add_sub_cancel_left]
  · have : ¬ (bitStart + 1 - length ≤ bitStart + 1 - length + i ∧
        bitStart + 1 - length + i ≤ bitStart) := by omega
    rw [if_neg this, decide_eq_false this, decide_eq_false hi, Bool.and_false, Bool.false_and]

theorem or_one_byte {a : Nat} (hA : a < 256) : (a ||| 1) % 256 = a ||| 1 :=
  Nat.mod_eq_of_lt (Nat.or_lt_two_pow (n := 8) hA (by norm_num))

theorem writeBits_script (rx : Nat → Nat) (a reg bitStart length data tmp0 : Nat)
    (w : World Script) :
    MPU6050_WriteBits (scriptDev (fun _ => 0) rx) a reg bitStart length data tmp0 w =
      World.mk (Script.mk (w.dev.sends + 6) (w.dev.reads + 1))
        (w.trace ++ [BusEvent.start, BusEvent.send (a % 256), BusEvent.send (reg % 256),
          BusEvent.restart, BusEvent.send ((a ||| 1) % 256), BusEvent.recv (rx w.dev.reads % 256),
          BusEvent.nak, BusEvent.stop, BusEvent.ack, BusEvent.start, BusEvent.send (a % 256),
          BusEvent.send (reg % 256),
          BusEvent.send (((rx w.dev.reads % 256 &&& intNot (fieldMask bitStart length)) % 256 |||
            ((data <<< fieldShift bitStart length) % 256 &&& fieldMask bitStart length)) % 256),
          BusEvent.stop]) w.serial := by
  unfold MPU6050_WriteBits
  simp only []
  rw [readByte_script_acked _ rx a reg _ 0 w rfl rfl rfl,
    byteWrite_script_acked _ rx a reg _ 0 _ rfl rfl rfl]
  simp

theorem writeBit_script (rx : Nat → Nat) (a reg bitNum data tmp0 : Nat)
    (w : World Script) :
    MPU6050_WriteBit (scriptDev (fun _ => 0) rx) a reg bitNum data tmp0 w =
      World.mk (Script.mk (w.dev.sends + 6) (w.dev.reads + 1))
        (w.trace ++ [BusEvent.start, BusEvent.send (a % 256), BusEvent.send (reg % 256),
          BusEvent.restart, BusEvent.send ((a ||| 1) % 256), BusEvent.recv (rx w.dev.reads % 256),
          BusEvent.nak, BusEvent.stop, BusEvent.ack, BusEvent.start, BusEvent.send (a % 256),
          BusEvent.send (reg % 256),
          BusEvent.send ((if data ≠ 0 then (rx w.dev.reads % 256 ||| (1 <<< bitNum)) % 256
            else (rx w.dev.reads % 256 &&& intNot (1 <<< bitNum)) % 256) % 256),
          BusEvent.stop]) w.serial := by
  unfold MPU6050_WriteBit
  simp only []
  rw [readByte_script_acked _ rx a reg _ 0 w rfl rfl rfl,
    byteWrite_script_acked _ rx a reg _ 0 _ rfl rfl rfl]
  simp

theorem readBits_script (rx : Nat → Nat) (a reg bitStart length tmp0 : Nat)
    (w : World Script) :
    (MPU6050_ReadBits (scriptDev (fun _ => 0) rx) a reg bitStart length tmp0 w).2 =
      (rx w.dev.reads % 256 &&& fieldMask bitStart length) >>> fieldShift bitStart length := by
  unfold MPU6050_ReadBits
  simp only []
  rw [readByte_script_acked _ rx a reg _ 0 w rfl rfl rfl]
  simp

theorem readBit_script (rx : Nat → Nat) (a reg bitNum tmp0 : Nat)
    (w : World Script) :
    (MPU6050_ReadBit (scriptDev (fun _ => 0) rx) a reg bitNum tmp0 w).2 =
      (rx w.dev.reads % 256 &&& (1 <<< bitNum)) % 256 := by
  unfold MPU6050_ReadBit
  simp only []
  rw [readByte_script_acked _ rx a reg _ 0 w rfl rfl rfl]
  simp

theorem regDev_readByte (s : RegFile) (hb : s.busy = 0) (a reg : Nat) (hA : a < 256)
    (hE : a % 2 = 0) (hR : reg < 256) (mem : Nat → Nat) (p : Nat) (t : List BusEvent)
    (l : List String) :
    MPU6050_I2C_BufferRead regDev a mem p reg 1 (World.mk s t l) =
      (World.mk (RegFile.mk s.regs ((reg + 1) % 256) Phase.idle 0)
        (t ++ [BusEvent.start, BusEvent.send a, BusEvent.send reg, BusEvent.restart,
          BusEvent.send (a ||| 1), BusEvent.recv (s.regs reg % 256), BusEvent.nak,
          BusEvent.stop, BusEvent.ack]) l,
       Function.update mem p (s.regs reg % 256)) := by
  have h1 : (a ||| 1) % 2 = 1 := by simp
  simp [MPU6050_I2C_BufferRead, bufferReadLoop, I2CStart, I2CSend, I2CRestart, I2CRead, I2CNak,
    I2CStop, I2CAck, regDev, RegFile.onSend, RegFile.onRead, hb, Nat.mod_eq_of_lt hA,
    Nat.mod_eq_of_lt hR, or_one_byte hA, hE, h1]

theorem regDev_byteWrite (s : RegFile) (hb : s.busy = 0) (a reg : Nat) (hA : a < 256)
    (hE : a % 2 = 0) (hR : reg < 256) (mem : Nat → Nat) (p : Nat) (t : List BusEvent)
    (l : List String) :
    MPU6050_I2C_ByteWrite regDev a mem p reg (World.mk s t l) =
      World.mk (RegFile.mk (Function.update s.regs reg (mem p % 256)) ((reg + 1) % 256)
          Phase.idle 0)
        (t ++ [BusEvent.start, BusEvent.send a, BusEvent.send reg,
          BusEvent.send (mem p % 256), BusEvent.stop]) l := by
  simp [MPU6050_I2C_ByteWrite, I2CStart, I2CSend, I2CStop, regDev, RegFile.onSend, hb,
    Nat.mod_eq_of_lt hA, Nat.mod_eq_of_lt hR, hE]


theorem writeBits_regDev (s : RegFile) (hb : s.busy = 0) (a reg bitStart length data tmp0 : Nat)
    (hA : a < 256) (hE : a % 2 = 0) (hR : reg < 256) (t : List BusEvent) (l : List String) :
    MPU6050_WriteBits regDev a reg bitStart length data tmp0 (World.mk s t l) =
      World.mk (RegFile.mk (Function.update s.regs reg
          ((s.regs reg % 256 &&& intNot (fieldMask bitStart length)) % 256 |||
            ((data <<< fieldShift bitStart length) % 256 &&& fieldMask bitStart length)))
          ((reg + 1) % 256) Phase.idle 0)
        (t ++ [BusEvent.start, BusEvent.send a, BusEvent.send reg, BusEvent.restart,
          BusEvent.send (a ||| 1), BusEvent.recv (s.regs reg % 256), BusEvent.nak,
          BusEvent.stop, BusEvent.ack, BusEvent.start, BusEvent.send a, BusEvent.send reg,
          BusEvent.send ((s.regs reg % 256 &&& intNot (fieldMask bitStart length)) % 256 |||
            ((data <<< fieldShift bitStart length) % 256 &&& fieldMask bitStart length)),
          BusEvent.stop]) l := by
  unfold MPU6050_WriteBits
  simp only []
  rw [regDev_readByte s hb a reg hA hE hR, regDev_byteWrite _ rfl a reg hA hE hR]
  simp [Nat.mod_eq_of_lt (inject_field_lt _ _ _ _)]

theorem readBits_regDev (s : RegFile) (hb : s.busy = 0) (a reg bitStart length tmp0 : Nat)
    (hA : a < 256) (hE : a % 2 = 0) (hR : reg < 256) (t : List BusEvent) (l : List String) :
    (MPU6050_ReadBits regDev a reg bitStart length tmp0 (World.mk s t l)).2 =
      (s.regs reg % 256 &&& fieldMask bitStart length) >>> fieldShift bitStart length := by
  unfold MPU6050_ReadBits
  simp only []
  rw [regDev_readByte s hb a reg hA hE hR]
  simp

/-- C3: against the simulated register file that acknowledges every byte, for every register
content, every descriptor with `1 ≤ length ≤ 8` and `length - 1 ≤ msb ≤ 7` and every value
`v < 2 ^ length`, `MPU6050_WriteBits` followed by `MPU6050_ReadBits` on the same register
returns `v`.  The bus address byte is even (write direction), as the device requires. -/
theorem writeBits_readBits_roundtrip (regs : Nat → Nat) (ptr slaveAddr regAddr msb length v : Nat)
    (tmpW tmpR : Nat) (hA : slaveAddr < 256) (hE : slaveAddr % 2 = 0) (hR : regAddr < 256)
    (h1 : 1 ≤ length) (_h8 : length ≤ 8) (h2 : length - 1 ≤ msb) (h3 : msb ≤ 7)
    (hv : v < 2 ^ length) :
    (MPU6050_ReadBits regDev slaveAddr regAddr msb length tmpR
      (MPU6050_WriteBits regDev slaveAddr regAddr msb length v tmpW
        (World.boot (RegFile.mk regs ptr Phase.idle 0)))).2 = v := by
  have hfit : length ≤ msb + 1 := by omega
  unfold World.boot
  rw [writeBits_regDev _ rfl _ _ _ _ _ _ hA hE hR, readBits_regDev _ rfl _ _ _ _ _ hA hE hR]
  simp only [Function.update_same]
  rw [Nat.mod_eq_of_lt (inject_field_lt _ _ _ _),
    extract_inject_field _ _ (Nat.mod_lt _ (by norm_num)) hfit h3, Nat.mod_eq_of_lt hv]

/-- Witness for C3: the register holds `0b10101111`; writing `0b010` with `msb = 4`,
`length = 3` reads back `0b010`. -/
theorem writeBits_readBits_roundtrip_witness :
    (MPU6050_ReadBits regDev 0xD0 0x6B 4 3 0
      (MPU6050_WriteBits regDev 0xD0 0x6B 4 3 0b010 0
        (World.boot (RegFile.mk (fun _ => 0b10101111) 0 Phase.idle 0)))).2 = 0b010 ∧
    (MPU6050_WriteBits regDev 0xD0 0x6B 4 3 0b010 0
        (World.boot (RegFile.mk (fun _ => 0b10101111) 0 Phase.idle 0))).dev.regs 0x6B
      = 0b10101011 :=
  ⟨writeBits_readBits_roundtrip (fun _ => 0b10101111) 0 0xD0 0x6B 4 3 0b010 0 0
    (by decide) (by decide) (by decide) (by decide) (by decide) (by decide) (by decide)
    (by decide), by decide⟩

/-- C4: for every fetched byte `r`, every descriptor with `1 ≤ length ≤ 8` and
`length - 1 ≤ msb ≤ 7` and every 8-bit `data`, the write transaction of `MPU6050_WriteBits`
sends a byte `x` that has the same bit as `r` at every position outside the run
`msb - length + 1 .. msb`. -/
theorem writeBits_keeps_outside_bits (slaveAddr regAddr msb length data tmp0 r : Nat)
    (hA : slaveAddr < 256) (hR : regAddr < 256) (hr : r < 256) (_hd : data < 256)
    (h1 : 1 ≤ length) (_h8 : length ≤ 8) (h2 : length - 1 ≤ msb) (h3 : msb ≤ 7) :
    ∃ x, x < 256 ∧
      (MPU6050_WriteBits (scriptDev (fun _ => 0) (fun _ => r)) slaveAddr regAddr msb length data
          tmp0 (World.boot (Script.mk 0 0))).trace
        = [BusEvent.start, BusEvent.send slaveAddr, BusEvent.send regAddr, BusEvent.restart,
           BusEvent.send (slaveAddr ||| 1), BusEvent.recv r, BusEvent.nak, BusEvent.stop,
           BusEvent.ack, BusEvent.start, BusEvent.send slaveAddr, BusEvent.send regAddr,
           BusEvent.send x, BusEvent.stop] ∧
      ∀ i, (i < msb + 1 - length ∨ msb < i) → x.testBit i = r.testBit i := by
  have hfit : length ≤ msb + 1 := by omega
  refine ⟨(r &&& intNot (fieldMask msb length)) % 256 |||
    ((data <<< fieldShift msb length) % 256 &&& fieldMask msb length),
    inject_field_lt _ _ _ _, ?_, ?_⟩
  · rw [writeBits_script]
    simp [World.boot, Nat.mod_eq_of_lt hA, Nat.mod_eq_of_lt hR, Nat.mod_eq_of_lt hr,
      or_one_byte hA, Nat.mod_eq_of_lt (inject_field_lt r data msb length)]
  · intro i hi
    rw [testBit_inject_field r data i hr hfit h3, if_neg (by omega)]

/-- Witness for C4: `0xFF` does not fit in three bits; the bits of `0b10101111` outside
positions 2..4 survive. -/
theorem writeBits_keeps_outside_bits_witness :
    ∃ x, x < 256 ∧
      (MPU6050_WriteBits (scriptDev (fun _ => 0) (fun _ => 0b10101111)) 0xD0 0x6B 4 3 0xFF
          0 (World.boot (Script.mk 0 0))).trace
        = [BusEvent.start, BusEvent.send 0xD0, BusEvent.send 0x6B, BusEvent.restart,
           BusEvent.send (0xD0 ||| 1), BusEvent.recv 0b10101111, BusEvent.nak, BusEvent.stop,
           BusEvent.ack, BusEvent.start, BusEvent.send 0xD0, BusEvent.send 0x6B,
           BusEvent.send x, BusEvent.stop] ∧
      ∀ i, (i < 4 + 1 - 3 ∨ 4 < i) → x.testBit i = (0b10101111 : Nat).testBit i :=
  writeBits_keeps_outside_bits 0xD0 0x6B 4 3 0xFF 0 0b10101111
    (by decide) (by decide) (by decide) (by decide) (by decide) (by decide) (by decide)
    (by decide)

/-- C9: for every fetched byte `r` and every descriptor with `1 ≤ length ≤ 8` and
`length - 1 ≤ msb ≤ 7`, `MPU6050_ReadBits` stores `r / 2 ^ (msb - length + 1) % 2 ^ length`,
which is below `2 ^ length`; the mask is not changed by its truncation to a byte and the
result fits in a byte. -/
theorem readBits_extracts_field (slaveAddr regAddr msb length tmp0 r : Nat) (hr : r < 256)
    (h1 : 1 ≤ length) (h8 : length ≤ 8) (h2 : length - 1 ≤ msb) (h3 : msb ≤ 7) :
    (MPU6050_ReadBits (scriptDev (fun _ => 0) (fun _ => r)) slaveAddr regAddr msb length tmp0
        (World.boot (Script.mk 0 0))).2 = r / 2 ^ (msb + 1 - length) % 2 ^ length ∧
    (MPU6050_ReadBits (scriptDev (fun _ => 0) (fun _ => r)) slaveAddr regAddr msb length tmp0
        (World.boot (Script.mk 0 0))).2 < 2 ^ length ∧
    (MPU6050_ReadBits (scriptDev (fun _ => 0) (fun _ => r)) slaveAddr regAddr msb length tmp0
        (World.boot (Script.mk 0 0))).2 < 256 ∧
    fieldMask msb length = ((1 <<< length) - 1) <<< (msb + 1 - length) := by
  have hfit : length ≤ msb + 1 := by omega
  have hval : (MPU6050_ReadBits (scriptDev (fun _ => 0) (fun _ => r)) slaveAddr regAddr msb
      length tmp0 (World.boot (Script.mk 0 0))).2 = r / 2 ^ (msb + 1 - length) % 2 ^ length := by
    rw [readBits_script, Nat.mod_eq_of_lt hr, extract_field r hfit h3]
  have hlt : r / 2 ^ (msb + 1 - length) % 2 ^ length < 2 ^ length :=
    Nat.mod_lt _ (Nat.pow_pos (by norm_num))
  have hle : 2 ^ length ≤ 2 ^ 8 := Nat.pow_le_pow_right (by norm_num) h8
  refine ⟨hval, by rw [hval]; exact hlt, by rw [hval]; omega, ?_⟩
  have := fieldMask_no_truncation hfit h3
  rw [fieldShift_eq hfit] at this
  unfold fieldMask
  rw [fieldShift_eq hfit, Nat.mod_eq_of_lt this]

/-- Witness for C9: `r = 0b01101001`, `msb = 4`, `length = 3` gives `0b010`. -/
theorem readBits_extracts_field_witness :
    (MPU6050_ReadBits (scriptDev (fun _ => 0) (fun _ => 0b01101001)) 0xD0 0x6B 4 3 0
        (World.boot (Script.mk 0 0))).2 = 0b010 :=
  (readBits_extracts_field 0xD0 0x6B 4 3 0 0b01101001 (by decide) (by decide) (by decide)
    (by decide) (by decide)).1


theorem testBit_one_shiftLeft (n i : Nat) : (1 <<< n).testBit i = decide (n = i) := by
  rw [Nat.one_shiftLeft, Nat.testBit_two_pow]

/-- Bits of the byte that `MPU6050_WriteBit` writes back. -/
theorem testBit_writeBit_byte (r n d i : Nat) (hr : r < 256) (hn : n ≤ 7) :
    (if d ≠ 0 then (r ||| (1 <<< n)) % 256 else (r &&& intNot (1 <<< n)) % 256).testBit i
      = if i = n then decide (d ≠ 0) else r.testBit i := by
  by_cases hd : d ≠ 0
  · rw [if_pos hd, testBit_byte, Nat.testBit_or, testBit_one_shiftLeft]
    by_cases hi : i = n
    · subst hi
      have h8 : i < 8 := by omega
      simp [h8, hd]
    · have hni : ¬ n = i := fun h => hi h.symm
      rw [if_neg hi, decide_eq_false hni, Bool.or_false]
      by_cases h8 : i < 8
      · simp [h8]
      · simp [h8, testBit_of_byte hr (Nat.le_of_not_lt h8)]
  · rw [if_neg hd, testBit_byte, Nat.testBit_and, testBit_intNot, testBit_one_shiftLeft]
    by_cases hi : i = n
    · subst hi
      have h16 : i < 16 := by omega
      simp [h16, hd]
    · have hni : ¬ n = i := fun h => hi h.symm
      rw [if_neg hi, decide_eq_false hni, Bool.xor_false]
      by_cases h8 : i < 8
      · have h16 : i < 16 := by omega
        simp [h8, h16]
      · simp [h8, testBit_of_byte hr (Nat.le_of_not_lt h8)]

theorem writeBit_byte_lt (r n d : Nat) :
    (if d ≠ 0 then (r ||| (1 <<< n)) % 256 else (r &&& intNot (1 <<< n)) % 256) < 256 := by
  split <;> exact Nat.mod_lt _ (by norm_num)

/-- With a value of 0 or 1, `MPU6050_WriteBit` and `MPU6050_WriteBits` of length 1 compute the
same byte. -/
theorem writeBit_byte_eq_inject (r n d : Nat) (hr : r < 256) (hn : n ≤ 7)
    (hd : d = 0 ∨ d = 1) :
    (r &&& intNot (fieldMask n 1)) % 256 |||
        ((d <<< fieldShift n 1) % 256 &&& fieldMask n 1)
      = if d ≠ 0 then (r ||| (1 <<< n)) % 256 else (r &&& intNot (1 <<< n)) % 256 := by
  apply Nat.eq_of_testBit_eq
  intro i
  rw [testBit_inject_field r d i hr (by omega) hn, testBit_writeBit_byte r n d i hr hn]
  by_cases hi : i = n
  · subst hi
    rw [if_pos (by omega), if_pos rfl]
    have : i - (i + 1 - 1) = 0 := by omega
    rw [this]
    rcases hd with h | h <;> subst h <;> simp
  · rw [if_neg (by omega), if_neg hi]

/-- C10: for every fetched byte `r`, bit number `n ≤ 7` and input `d`, the write transaction
of `MPU6050_WriteBit` sends a byte `x` whose bit `n` is 1 exactly when `d` is nonzero and
whose other bits are those of `r`; for `d = 0` or `d = 1`, `MPU6050_WriteBits` with
`mostSignificantBit = n`, `length = 1` and value `d` produces the same trace, hence the same
byte. -/
theorem writeBit_sets_one_bit (slaveAddr regAddr n d tmp0 r : Nat)
    (hA : slaveAddr < 256) (hR : regAddr < 256) (hr : r < 256) (hn : n ≤ 7) (_hd : d < 256) :
    ∃ x, x < 256 ∧
      (MPU6050_WriteBit (scriptDev (fun _ => 0) (fun _ => r)) slaveAddr regAddr n d
          tmp0 (World.boot (Script.mk 0 0))).trace
        = [BusEvent.start, BusEvent.send slaveAddr, BusEvent.send regAddr, BusEvent.restart,
           BusEvent.send (slaveAddr ||| 1), BusEvent.recv r, BusEvent.nak, BusEvent.stop,
           BusEvent.ack, BusEvent.start, BusEvent.send slaveAddr, BusEvent.send regAddr,
           BusEvent.send x, BusEvent.stop] ∧
      x.testBit n = decide (d ≠ 0) ∧
      (∀ i, i ≠ n → x.testBit i = r.testBit i) ∧
      ((d = 0 ∨ d = 1) →
        (MPU6050_WriteBits (scriptDev (fun _ => 0) (fun _ => r)) slaveAddr regAddr n 1 d
            tmp0 (World.boot (Script.mk 0 0))).trace
          = (MPU6050_WriteBit (scriptDev (fun _ => 0) (fun _ => r)) slaveAddr regAddr n d
            tmp0 (World.boot (Script.mk 0 0))).trace) := by
  refine ⟨if d ≠ 0 then (r ||| (1 <<< n)) % 256 else (r &&& intNot (1 <<< n)) % 256,
    writeBit_byte_lt r n d, ?_, ?_, ?_, ?_⟩
  · rw [writeBit_script]
    simp only [World.boot, Nat.mod_eq_of_lt hA, Nat.mod_eq_of_lt hR, Nat.mod_eq_of_lt hr,
      or_one_byte hA, Nat.mod_eq_of_lt (writeBit_byte_lt r n d), List.nil_append]
  · rw [testBit_writeBit_byte r n d n hr hn, if_pos rfl]
  · intro i hi
    rw [testBit_writeBit_byte r n d i hr hn, if_neg hi]
  · intro hd
    rw [writeBit_script, writeBits_script]
    simp only [World.boot, Nat.mod_eq_of_lt hr, writeBit_byte_eq_inject r n d hr hn hd]

/-- Witness for C10: setting bit 6 of `0b10101111` sends `0b11101111`, as does
`MPU6050_WriteBits` with length 1. -/
theorem writeBit_sets_one_bit_witness :
    ∃ x, x < 256 ∧
      (MPU6050_WriteBit (scriptDev (fun _ => 0) (fun _ => 0b10101111)) 0xD0 0x6B 6 1
          0 (World.boot (Script.mk 0 0))).trace
        = [BusEvent.start, BusEvent.send 0xD0, BusEvent.send 0x6B, BusEvent.restart,
           BusEvent.send (0xD0 ||| 1), BusEvent.recv 0b10101111, BusEvent.nak, BusEvent.stop,
           BusEvent.ack, BusEvent.start, BusEvent.send 0xD0, BusEvent.send 0x6B,
           BusEvent.send x, BusEvent.stop] ∧
      x.testBit 6 = true ∧
      (∀ i, i ≠ 6 → x.testBit i = (0b10101111 : Nat).testBit i) ∧
      (MPU6050_WriteBits (scriptDev (fun _ => 0) (fun _ => 0b10101111)) 0xD0 0x6B 6 1 1
            0 (World.boot (Script.mk 0 0))).trace
          = (MPU6050_WriteBit (scriptDev (fun _ => 0) (fun _ => 0b10101111)) 0xD0 0x6B 6 1
            0 (World.boot (Script.mk 0 0))).trace := by
  obtain ⟨x, h1, h2, h3, h4, h5⟩ := writeBit_sets_one_bit 0xD0 0x6B 6 1 0 0b10101111
    (by decide) (by decide) (by decide) (by decide) (by decide)
  exact ⟨x, h1, h2, h3, h4, h5 (Or.inr rfl)⟩


theorem readBit_byte_eq (r n : Nat) (hn : n ≤ 7) :
    (r &&& (1 <<< n)) % 256 = 2 ^ n * (r / 2 ^ n % 2) := by
  apply Nat.eq_of_testBit_eq
  intro i
  rw [testBit_byte, Nat.testBit_and, testBit_one_shiftLeft]
  have hbit : r.testBit n = decide (r / 2 ^ n % 2 = 1) := Nat.testBit_to_div_mod
  rcases Nat.mod_two_eq_zero_or_one (r / 2 ^ n) with h | h
  · rw [h, Nat.mul_zero, Nat.zero_testBit]
    by_cases hi : n = i
    · subst hi
      rw [hbit, h]
      simp
    · rw [decide_eq_false hi]
      simp
  · rw [h, Nat.mul_one, Nat.testBit_two_pow]
    by_cases hi : n = i
    · subst hi
      have h8 : n < 8 := by omega
      rw [hbit, h, decide_eq_true h8]
      simp
    · rw [decide_eq_false hi]
      simp

/-- C8 fails as stated: for the register byte `0b00001000` and `n = 3`, `MPU6050_ReadBit`
stores 8, which is neither the value of bit 3 (1) nor what `MPU6050_ReadBits` stores with
`mostSignificantBit = 3`, `length = 1`. -/
theorem readBit_not_bit_value :
    (MPU6050_ReadBit (scriptDev (fun _ => 0) (fun _ => 0b00001000)) 0xD0 0x6B 3 0
        (World.boot (Script.mk 0 0))).2 = 8 ∧
    (MPU6050_ReadBit (scriptDev (fun _ => 0) (fun _ => 0b00001000)) 0xD0 0x6B 3 0
        (World.boot (Script.mk 0 0))).2 ≠ 0b00001000 / 2 ^ 3 % 2 ∧
    (MPU6050_ReadBit (scriptDev (fun _ => 0) (fun _ => 0b00001000)) 0xD0 0x6B 3 0
        (World.boot (Script.mk 0 0))).2 ≠
      (MPU6050_ReadBits (scriptDev (fun _ => 0) (fun _ => 0b00001000)) 0xD0 0x6B 3 1 0
        (World.boot (Script.mk 0 0))).2 := by
  decide

/-- C8 as amended: for every register byte `r` and bit number `n ≤ 7`, `MPU6050_ReadBit`
stores bit `n` of `r` left in its position, that is `2 ^ n` times the bit value, which is
`2 ^ n` times what `MPU6050_ReadBits` stores with `mostSignificantBit = n`, `length = 1`. -/
theorem readBit_keeps_bit_in_place (slaveAddr regAddr n tmp0 r : Nat) (hr : r < 256)
    (hn : n ≤ 7) :
    (MPU6050_ReadBit (scriptDev (fun _ => 0) (fun _ => r)) slaveAddr regAddr n tmp0
        (World.boot (Script.mk 0 0))).2 = 2 ^ n * (r / 2 ^ n % 2) ∧
    (MPU6050_ReadBit (scriptDev (fun _ => 0) (fun _ => r)) slaveAddr regAddr n tmp0
        (World.boot (Script.mk 0 0))).2 =
      2 ^ n * (MPU6050_ReadBits (scriptDev (fun _ => 0) (fun _ => r)) slaveAddr regAddr n 1 tmp0
        (World.boot (Script.mk 0 0))).2 := by
  have h1 : (MPU6050_ReadBit (scriptDev (fun _ => 0) (fun _ => r)) slaveAddr regAddr n tmp0
      (World.boot (Script.mk 0 0))).2 = 2 ^ n * (r / 2 ^ n % 2) := by
    rw [readBit_script, Nat.mod_eq_of_lt hr, readBit_byte_eq r n hn]
  refine ⟨h1, ?_⟩
  rw [h1, readBits_script, Nat.mod_eq_of_lt hr, extract_field r (by omega) hn]
  simp

/-- Witness for C8 as amended: bit 3 of `0b00001000` is stored as 8. -/
theorem readBit_keeps_bit_in_place_witness :
    (MPU6050_ReadBit (scriptDev (fun _ => 0) (fun _ => 0b00001000)) 0xD0 0x6B 3 0
        (World.boot (Script.mk 0 0))).2 = 2 ^ 3 * (0b00001000 / 2 ^ 3 % 2) :=
  (readBit_keeps_bit_in_place 0xD0 0x6B 3 0 0b00001000 (by decide) (by decide)).1


/-- C6 fails as stated: the register file refuses the first address byte, so the fetch of
`MPU6050_WriteBits` is aborted after start, send(address), stop; the write transaction
follows all the same (five more bus events after the stop of the abort) and the register
changes from `0xFF` to `0b00001000`. -/
theorem writeBits_writes_after_failed_fetch :
    (MPU6050_WriteBits regDev 0xD0 0x6B 4 3 0b010 0
        (World.boot (RegFile.mk (fun _ => 0xFF) 0 Phase.idle 1))).trace
      = [BusEvent.start, BusEvent.send 0xD0, BusEvent.stop, BusEvent.start, BusEvent.send 0xD0,
         BusEvent.send 0x6B, BusEvent.send 0b00001000, BusEvent.stop] ∧
    (MPU6050_WriteBits regDev 0xD0 0x6B 4 3 0b010 0
        (World.boot (RegFile.mk (fun _ => 0xFF) 0 Phase.idle 1))).dev.regs 0x6B = 0b00001000 ∧
    (MPU6050_WriteBits regDev 0xD0 0x6B 4 3 0b010 0
        (World.boot (RegFile.mk (fun _ => 0xFF) 0 Phase.idle 1))).dev.regs 0x6B ≠ 0xFF := by
  decide

/-- The world and memory after a block read whose `j`-th addressing send is refused. -/
theorem bufferRead_script_abort (ackOf rx : Nat → Nat) (a reg k : Nat) (mem : Nat → Nat)
    (p j : Nat) (hj : j < 3) (hpre : ∀ i, i < j → ackOf i = 0) (hnack : ackOf j ≠ 0) :
    MPU6050_I2C_BufferRead (scriptDev ackOf rx) a mem p reg k (World.boot (Script.mk 0 0)) =
      (World.mk (Script.mk (j + 1) 0)
        ((match j with
          | 0 => [BusEvent.start, BusEvent.send (a % 256)]
          | 1 => [BusEvent.start, BusEvent.send (a % 256), BusEvent.send (reg % 256)]
          | _ => [BusEvent.start, BusEvent.send (a % 256), BusEvent.send (reg % 256),
                  BusEvent.restart, BusEvent.send ((a ||| 1) % 256)]) ++ [BusEvent.stop])
        ["address sent but NACK received"], mem) := by
  match j, hj, hpre, hnack with
  | 0, _, _, hnack =>
    simp [MPU6050_I2C_BufferRead, I2CStart, I2CSend, RecivedNACK,
      I2CStop, USBSerial_println, scriptDev, World.boot, hnack]
  | 1, _, hpre, hnack =>
    have h0 : ackOf 0 = 0 := hpre 0 (by omega)
    simp [MPU6050_I2C_BufferRead, I2CStart, I2CSend, RecivedNACK,
      I2CStop, USBSerial_println, scriptDev, World.boot, hnack, h0]
  | 2, _, hpre, hnack =>
    have h0 : ackOf 0 = 0 := hpre 0 (by omega)
    have h1 : ackOf 1 = 0 := hpre 1 (by omega)
    simp [MPU6050_I2C_BufferRead, I2CStart, I2CSend, I2CRestart, RecivedNACK,
      I2CStop, USBSerial_println, scriptDev, World.boot, hnack, h0, h1]

/-- C6 as amended: `MPU6050_WriteBits` does not propagate a failed fetch.  Under every
acknowledgment pattern, when the `j`-th addressing send of the single-byte read is the first
one refused, the trace is that of the aborted read followed by the register-write
transaction: start, send(address), then, as far as the sends are acknowledged,
send(register index) and send(a data byte `x`), closed by one stop. -/
theorem writeBits_ignores_failed_fetch (ackOf rx : Nat → Nat)
    (slaveAddr regAddr msb length data tmp0 j : Nat) (hA : slaveAddr < 256)
    (hR : regAddr < 256) (hj : j < 3) (hpre : ∀ i, i < j → ackOf i = 0)
    (hnack : ackOf j ≠ 0) :
    ∃ x, x < 256 ∧
      (MPU6050_WriteBits (scriptDev ackOf rx) slaveAddr regAddr msb length data tmp0
          (World.boot (Script.mk 0 0))).trace
        = (match j with
            | 0 => [BusEvent.start, BusEvent.send slaveAddr]
            | 1 => [BusEvent.start, BusEvent.send slaveAddr, BusEvent.send regAddr]
            | _ => [BusEvent.start, BusEvent.send slaveAddr, BusEvent.send regAddr,
                    BusEvent.restart, BusEvent.send (slaveAddr ||| 1)])
          ++ [BusEvent.stop, BusEvent.start, BusEvent.send slaveAddr]
          ++ (if ackOf (j + 1) ≠ 0 then [BusEvent.stop]
              else if ackOf (j + 2) ≠ 0 then [BusEvent.send regAddr, BusEvent.stop]
              else [BusEvent.send regAddr, BusEvent.send x, BusEvent.stop]) := by
  refine ⟨((tmp0 &&& intNot (fieldMask msb length)) % 256 |||
    ((data <<< fieldShift msb length) % 256 &&& fieldMask msb length)) % 256,
    Nat.mod_lt _ (by norm_num), ?_⟩
  unfold MPU6050_WriteBits
  simp only []
  rw [bufferRead_script_abort ackOf rx slaveAddr regAddr 1 _ 0 j hj hpre hnack]
  match j, hj with
  | 0, _ =>
    by_cases h1 : ackOf 1 = 0 <;> by_cases h2 : ackOf 2 = 0 <;> by_cases h3 : ackOf 3 = 0 <;>
      simp [MPU6050_I2C_ByteWrite, I2CStart, I2CSend, RecivedNACK, I2CStop, USBSerial_println,
        scriptDev, h1, h2, h3, Nat.mod_eq_of_lt hA, Nat.mod_eq_of_lt hR]
  | 1, _ =>
    by_cases h1 : ackOf 2 = 0 <;> by_cases h2 : ackOf 3 = 0 <;> by_cases h3 : ackOf 4 = 0 <;>
      simp [MPU6050_I2C_ByteWrite, I2CStart, I2CSend, RecivedNACK, I2CStop, USBSerial_println,
        scriptDev, h1, h2, h3, Nat.mod_eq_of_lt hA, Nat.mod_eq_of_lt hR]
  | 2, _ =>
    by_cases h1 : ackOf 3 = 0 <;> by_cases h2 : ackOf 4 = 0 <;> by_cases h3 : ackOf 5 = 0 <;>
      simp [MPU6050_I2C_ByteWrite, I2CStart, I2CSend, RecivedNACK, I2CStop, USBSerial_println,
        scriptDev, h1, h2, h3, Nat.mod_eq_of_lt hA, Nat.mod_eq_of_lt hR, or_one_byte hA]

/-- Witness for C6 as amended: a device that refuses every byte.  The fetch is aborted
after the address byte, and the write transaction is started and aborted in turn. -/
theorem writeBits_ignores_failed_fetch_witness :
    (MPU6050_WriteBits (scriptDev (fun _ => 1) (fun _ => 0xFF)) 0xD0 0x6B 4 3 0b010 0
        (World.boot (Script.mk 0 0))).trace
      = [BusEvent.start, BusEvent.send 0xD0, BusEvent.stop, BusEvent.start, BusEvent.send 0xD0,
         BusEvent.stop] := by
  obtain ⟨_, _, h⟩ := writeBits_ignores_failed_fetch (fun _ => 1) (fun _ => 0xFF) 0xD0 0x6B 4 3
    0b010 0 0 (by decide) (by decide) (by decide) (by intro i hi; omega) (by decide)
  exact h

/-! ## Raw sample decoding -/


/-- The stored word is the two's-complement reading of high byte times 256 plus low byte. -/
theorem sampleWord_eq (m : Nat → Nat) (i : Nat) (hhi : m (2 * i) < 256)
    (hlo : m (2 * i + 1) < 256) :
    sampleWord m i = signed16 (m (2 * i) * 256 + m (2 * i + 1)) := by
  unfold sampleWord signed16 toInt16
  rw [Nat.shiftLeft_eq]
  have h8 : (2 : Nat) ^ 8 = 256 := by norm_num
  rw [h8]
  generalize m (2 * i) = hi at *
  generalize m (2 * i + 1) = lo at *
  split <;> omega

/-- The temporary buffer after the 14-byte read from an acknowledging device. -/
theorem bufferRead_script_block (rx : Nat → Nat) (a reg k : Nat) (mem : Nat → Nat) (j : Nat)
    (hj : j < k) :
    (MPU6050_I2C_BufferRead (scriptDev (fun _ => 0) rx) a mem 0 reg k
        (World.boot (Script.mk 0 0))).2 j = rx j % 256 := by
  rw [bufferRead_script_acked _ rx a reg k mem 0 _ rfl rfl rfl]
  dsimp only
  rw [(bufferReadLoop_script _ rx k _ mem 0).2.2.2.2 j, if_pos (by omega)]
  simp [World.boot]

/-- The six stored words when the twelve bytes that are decoded are bytes (nothing is asked
of `b 6` and `b 7`). -/
theorem getRawAccelGyro_words (b : Nat → Nat) (DEFAULT_ADDRESS RA_ACCEL_XOUT_H : Nat)
    (tmpBuffer0 : Nat → Nat) (AccelGyro : Nat → Int)
    (hb : ∀ i, i < 14 → i ≠ 6 → i ≠ 7 → b i < 256) :
    (∀ i, i < 3 →
      (MPU6050_GetRawAccelGyro (scriptDev (fun _ => 0) b) DEFAULT_ADDRESS RA_ACCEL_XOUT_H
        tmpBuffer0 AccelGyro (World.boot (Script.mk 0 0))).2 i
        = signed16 (b (2 * i) * 256 + b (2 * i + 1))) ∧
    (∀ i, 3 ≤ i → i < 6 →
      (MPU6050_GetRawAccelGyro (scriptDev (fun _ => 0) b) DEFAULT_ADDRESS RA_ACCEL_XOUT_H
        tmpBuffer0 AccelGyro (World.boot (Script.mk 0 0))).2 i
        = signed16 (b (2 * i + 2) * 256 + b (2 * i + 3))) ∧
    (∀ i, 6 ≤ i →
      (MPU6050_GetRawAccelGyro (scriptDev (fun _ => 0) b) DEFAULT_ADDRESS RA_ACCEL_XOUT_H
        tmpBuffer0 AccelGyro (World.boot (Script.mk 0 0))).2 i = AccelGyro i) := by
  have hm : ∀ j, j < 14 → j ≠ 6 → j ≠ 7 →
      (MPU6050_I2C_BufferRead (scriptDev (fun _ => 0) b) DEFAULT_ADDRESS tmpBuffer0 0
        RA_ACCEL_XOUT_H 14 (World.boot (Script.mk 0 0))).2 j = b j := by
    intro j hj h6 h7
    rw [bufferRead_script_block b _ _ 14 tmpBuffer0 j hj, Nat.mod_eq_of_lt (hb j hj h6 h7)]
  have hw : ∀ i, i < 7 → i ≠ 3 →
      sampleWord (MPU6050_I2C_BufferRead (scriptDev (fun _ => 0) b) DEFAULT_ADDRESS tmpBuffer0 0
        RA_ACCEL_XOUT_H 14 (World.boot (Script.mk 0 0))).2 i
      = signed16 (b (2 * i) * 256 + b (2 * i + 1)) := by
    intro i hi h3
    have e1 := hm (2 * i) (by omega) (by omega) (by omega)
    have e2 := hm (2 * i + 1) (by omega) (by omega) (by omega)
    rw [sampleWord_eq _ i (by rw [e1]; exact hb _ (by omega) (by omega) (by omega))
      (by rw [e2]; exact hb _ (by omega) (by omega) (by omega)), e1, e2]
  unfold MPU6050_GetRawAccelGyro
  simp only [List.foldl_cons, List.foldl_nil]
  refine ⟨?_, ?_, ?_⟩
  · intro i hi
    interval_cases i <;> simp [Function.update, hw]
  · intro i hi3 hi6
    interval_cases i <;> simp [Function.update, hw]
  · intro i hi
    have e0 : i ≠ 0 := by omega
    have e1 : i ≠ 1 := by omega
    have e2 : i ≠ 2 := by omega
    have e3 : i ≠ 3 := by omega
    have e4 : i ≠ 4 := by omega
    have e5 : i ≠ 5 := by omega
    simp [Function.update, e0, e1, e2, e3, e4, e5]

/-- C7: for every 14-byte block `b` delivered by the block read, `MPU6050_GetRawAccelGyro`
stores six values: entry `i` for `i = 0, 1, 2` is the signed 16-bit reading of
`b[2i] * 256 + b[2i+1]` and entry `i` for `i = 3, 4, 5` is that of
`b[2i+2] * 256 + b[2i+3]`; a block `c` that differs from `b` only in bytes 6 and 7 gives the
same six values. -/
theorem getRawAccelGyro_decodes (b : Nat → Nat) (DEFAULT_ADDRESS RA_ACCEL_XOUT_H : Nat)
    (tmpBuffer0 : Nat → Nat) (AccelGyro : Nat → Int) (hb : ∀ i, i < 14 → b i < 256) :
    (∀ i, i < 3 →
      (MPU6050_GetRawAccelGyro (scriptDev (fun _ => 0) b) DEFAULT_ADDRESS RA_ACCEL_XOUT_H
        tmpBuffer0 AccelGyro (World.boot (Script.mk 0 0))).2 i
        = signed16 (b (2 * i) * 256 + b (2 * i + 1))) ∧
    (∀ i, 3 ≤ i → i < 6 →
      (MPU6050_GetRawAccelGyro (scriptDev (fun _ => 0) b) DEFAULT_ADDRESS RA_ACCEL_XOUT_H
        tmpBuffer0 AccelGyro (World.boot (Script.mk 0 0))).2 i
        = signed16 (b (2 * i + 2) * 256 + b (2 * i + 3))) ∧
    (∀ c : Nat → Nat, (∀ j, j ≠ 6 → j ≠ 7 → c j = b j) → ∀ i, i < 6 →
      (MPU6050_GetRawAccelGyro (scriptDev (fun _ => 0) c) DEFAULT_ADDRESS RA_ACCEL_XOUT_H
        tmpBuffer0 AccelGyro (World.boot (Script.mk 0 0))).2 i
      = (MPU6050_GetRawAccelGyro (scriptDev (fun _ => 0) b) DEFAULT_ADDRESS RA_ACCEL_XOUT_H
        tmpBuffer0 AccelGyro (World.boot (Script.mk 0 0))).2 i) := by
  obtain ⟨hlo, hhi, -⟩ := getRawAccelGyro_words b DEFAULT_ADDRESS RA_ACCEL_XOUT_H tmpBuffer0
    AccelGyro (fun i hi _ _ => hb i hi)
  refine ⟨hlo, hhi, ?_⟩
  intro c hc i hi
  obtain ⟨clo, chi, -⟩ := getRawAccelGyro_words c DEFAULT_ADDRESS RA_ACCEL_XOUT_H tmpBuffer0
    AccelGyro (fun j hj h6 h7 => by rw [hc j h6 h7]; exact hb j hj)
  by_cases h3 : i < 3
  · rw [clo i h3, hlo i h3, hc _ (by omega) (by omega), hc _ (by omega) (by omega)]
  · rw [chi i (by omega) hi, hhi i (by omega) hi, hc _ (by omega) (by omega),
      hc _ (by omega) (by omega)]

/-- Witness for C7: the sample block of the specification decodes to
`[0x0102, -1, 0x0010, -32768, 32767, 1]`, whatever the two unused bytes are (here 0xAB and
0xCD). -/
theorem getRawAccelGyro_decodes_witness :
    (List.range 6).map
      (MPU6050_GetRawAccelGyro
        (scriptDev (fun _ => 0)
          (fun i => [0x01, 0x02, 0xFF, 0xFF, 0x00, 0x10, 0xAB, 0xCD, 0x80, 0x00, 0x7F, 0xFF,
            0x00, 0x01].getD i 0))
        0xD0 0x3B (fun _ => 0) (fun _ => 0) (World.boot (Script.mk 0 0))).2
      = [0x0102, -1, 0x0010, -32768, 32767, 1] := by
  have h := getRawAccelGyro_decodes
    (fun i => [0x01, 0x02, 0xFF, 0xFF, 0x00, 0x10, 0xAB, 0xCD, 0x80, 0x00, 0x7F, 0xFF,
      0x00, 0x01].getD i 0) 0xD0 0x3B (fun _ => 0) (fun _ => 0)
    (by intro i hi; interval_cases i <;> decide)
  simp only [List.range, List.range.loop, List.map]
  rw [h.1 0 (by decide), h.1 1 (by decide), h.1 2 (by decide),
    h.2.1 3 (by decide) (by decide), h.2.1 4 (by decide) (by decide),
    h.2.1 5 (by decide) (by decide)]
  decide

/-! ## Address bytes, write trace and bus release -/


theorem countSend_append (a b : List BusEvent) : countSend (a ++ b) = countSend a + countSend b := by
  induction a with
  | nil => simp [countSend]
  | cons e t ih => cases e <;> simp [countSend, ih]; omega

theorem bufferReadLoop_extends {σ : Type} (d : Device σ) (n : Nat) :
    ∀ (w : World σ) (mem : Nat → Nat) (p : Nat),
      ∃ t, (bufferReadLoop d n w mem p).1.trace = w.trace ++ t := by
  induction n with
  | zero => intro w mem p; exact ⟨[], by simp [bufferReadLoop]⟩
  | succ n ih =>
    intro w mem p
    simp only [bufferReadLoop]
    obtain ⟨t, ht⟩ := ih (I2CAck d (if n + 1 = 1 then I2CStop d (I2CNak d (I2CRead d w).1)
      else (I2CRead d w).1)) (Function.update mem p (I2CRead d w).2) (p + 1)
    rw [ht]
    by_cases hn : n = 0
    · exact ⟨[BusEvent.recv ((d.onRead w.dev).2 % 256), BusEvent.nak, BusEvent.stop,
        BusEvent.ack] ++ t, by simp [hn, I2CAck, I2CStop, I2CNak, I2CRead]⟩
    · exact ⟨[BusEvent.recv ((d.onRead w.dev).2 % 256), BusEvent.ack] ++ t,
        by simp [hn, I2CAck, I2CRead]⟩

theorem bufferReadLoop_countStop {σ : Type} (d : Device σ) (n : Nat) :
    ∀ (w : World σ) (mem : Nat → Nat) (p : Nat),
      countStop (bufferReadLoop d n w mem p).1.trace
        = countStop w.trace + (if n = 0 then 0 else 1) := by
  induction n with
  | zero => intro w mem p; simp [bufferReadLoop]
  | succ n ih =>
    intro w mem p
    simp only [bufferReadLoop]
    rw [ih]
    by_cases hn : n = 0
    · simp [hn, I2CAck, I2CStop, I2CNak, I2CRead, countStop]
    · simp [hn, I2CAck, I2CRead, countStop]


/-- C11 fails as stated: with the odd address `0x69` the address byte of the write phase is
`0x69`, whose low bit is 1, in the write transaction and in the block read. -/
theorem odd_address_sent_unchanged :
    (MPU6050_I2C_ByteWrite (scriptDev (fun _ => 0) (fun _ => 0)) 0x69 (fun _ => 7) 0 0x6B
        (World.boot (Script.mk 0 0))).trace
      = [BusEvent.start, BusEvent.send 0x69, BusEvent.send 0x6B, BusEvent.send 7,
         BusEvent.stop] ∧
    (MPU6050_I2C_BufferRead (scriptDev (fun _ => 0) (fun _ => 0)) 0x69 (fun _ => 7) 0 0x6B 1
        (World.boot (Script.mk 0 0))).1.trace
      = [BusEvent.start, BusEvent.send 0x69, BusEvent.send 0x6B, BusEvent.restart,
         BusEvent.send 0x69, BusEvent.recv 0, BusEvent.nak, BusEvent.stop, BusEvent.ack] ∧
    0x69 % 2 = 1 := by
  decide

/-- C11 as amended: for every address byte passed to `MPU6050_I2C_ByteWrite` or
`MPU6050_I2C_BufferRead`, the address byte of the write phase is the given address
unchanged (its low bit is 0 exactly when the given address is even), and the address byte
`ar` of the read phase has low bit 1 and the upper seven bits of the given address. -/
theorem address_bytes_on_the_wire (ackOf rx : Nat → Nat) (slaveAddr regAddr k : Nat)
    (mem : Nat → Nat) (pBuffer : Nat) (hA : slaveAddr < 256) (hR : regAddr < 256)
    (hack : ackOf 0 = 0 ∧ ackOf 1 = 0 ∧ ackOf 2 = 0) :
    (MPU6050_I2C_ByteWrite (scriptDev ackOf rx) slaveAddr mem pBuffer regAddr
        (World.boot (Script.mk 0 0))).trace
      = [BusEvent.start, BusEvent.send slaveAddr, BusEvent.send regAddr,
         BusEvent.send (mem pBuffer % 256), BusEvent.stop] ∧
    ∃ ar t,
      (MPU6050_I2C_BufferRead (scriptDev ackOf rx) slaveAddr mem pBuffer regAddr k
          (World.boot (Script.mk 0 0))).1.trace
        = [BusEvent.start, BusEvent.send slaveAddr, BusEvent.send regAddr, BusEvent.restart,
           BusEvent.send ar] ++ t ∧
      ar % 2 = 1 ∧ ar / 2 = slaveAddr / 2 := by
  constructor
  · rw [byteWrite_script_acked ackOf rx slaveAddr regAddr mem pBuffer _ hack.1 hack.2.1
      hack.2.2]
    simp [World.boot, Nat.mod_eq_of_lt hA, Nat.mod_eq_of_lt hR]
  · rw [bufferRead_script_acked ackOf rx slaveAddr regAddr k mem pBuffer _ hack.1 hack.2.1
      hack.2.2]
    obtain ⟨t, ht⟩ := bufferReadLoop_extends (scriptDev ackOf rx) k
      (World.mk (Script.mk ((World.boot (Script.mk 0 0)).dev.sends + 3)
        (World.boot (Script.mk 0 0)).dev.reads)
        ((World.boot (Script.mk 0 0)).trace ++ [BusEvent.start, BusEvent.send (slaveAddr % 256),
          BusEvent.send (regAddr % 256), BusEvent.restart,
          BusEvent.send ((slaveAddr ||| 1) % 256)]) (World.boot (Script.mk 0 0)).serial)
      mem pBuffer
    refine ⟨slaveAddr ||| 1, t, ?_, by simp, by rw [Nat.or_div_two]; simp⟩
    rw [ht]
    simp [World.boot, Nat.mod_eq_of_lt hA, Nat.mod_eq_of_lt hR, or_one_byte hA]

/-- Witness for C11 as amended: the address `0xD0` goes out as `0xD0`, then as `0xD1`. -/
theorem address_bytes_on_the_wire_witness :
    (MPU6050_I2C_ByteWrite (scriptDev (fun _ => 0) (fun _ => 0)) 0xD0 (fun _ => 7) 0 0x6B
        (World.boot (Script.mk 0 0))).trace
      = [BusEvent.start, BusEvent.send 0xD0, BusEvent.send 0x6B,
         BusEvent.send (7 % 256), BusEvent.stop] ∧
    ∃ ar t,
      (MPU6050_I2C_BufferRead (scriptDev (fun _ => 0) (fun _ => 0)) 0xD0 (fun _ => 7) 0 0x6B 1
          (World.boot (Script.mk 0 0))).1.trace
        = [BusEvent.start, BusEvent.send 0xD0, BusEvent.send 0x6B, BusEvent.restart,
           BusEvent.send ar] ++ t ∧
      ar % 2 = 1 ∧ ar / 2 = 0xD0 / 2 :=
  address_bytes_on_the_wire (fun _ => 0) (fun _ => 0) 0xD0 0x6B 1 (fun _ => 7) 0
    (by decide) (by decide) ⟨rfl, rfl, rfl⟩

/-- C12: when the device acknowledges all three bytes, `MPU6050_I2C_ByteWrite` produces
exactly the trace start, send(address), send(register index), send(data byte), stop (the
address byte is `slaveAddr | 0`, that is `slaveAddr`); and under any acknowledgment pattern
`nack`, a trace with three bytes sent (the data byte went out) implies that the address and
the register index were both acknowledged. -/
theorem byteWrite_trace (ackOf rx : Nat → Nat) (slaveAddr writeAddr : Nat) (mem : Nat → Nat)
    (pBuffer : Nat) (hA : slaveAddr < 256) (hR : writeAddr < 256) (hD : mem pBuffer < 256)
    (hack : ackOf 0 = 0 ∧ ackOf 1 = 0 ∧ ackOf 2 = 0) :
    (MPU6050_I2C_ByteWrite (scriptDev ackOf rx) slaveAddr mem pBuffer writeAddr
        (World.boot (Script.mk 0 0))).trace
      = [BusEvent.start, BusEvent.send slaveAddr, BusEvent.send writeAddr,
         BusEvent.send (mem pBuffer), BusEvent.stop] ∧
    ∀ nack : Nat → Nat,
      3 ≤ countSend (MPU6050_I2C_ByteWrite (scriptDev nack rx) slaveAddr mem pBuffer writeAddr
        (World.boot (Script.mk 0 0))).trace → nack 0 = 0 ∧ nack 1 = 0 := by
  constructor
  · rw [byteWrite_script_acked ackOf rx slaveAddr writeAddr mem pBuffer _ hack.1 hack.2.1
      hack.2.2]
    simp [World.boot, Nat.mod_eq_of_lt hA, Nat.mod_eq_of_lt hR, Nat.mod_eq_of_lt hD]
  · intro nack h
    by_cases h0 : nack 0 = 0
    · by_cases h1 : nack 1 = 0
      · exact ⟨h0, h1⟩
      · exfalso
        revert h
        simp [MPU6050_I2C_ByteWrite, I2CStart, I2CSend, RecivedNACK, I2CStop, USBSerial_println,
          scriptDev, World.boot, h0, h1, countSend]
    · exfalso
      revert h
      simp [MPU6050_I2C_ByteWrite, I2CStart, I2CSend, RecivedNACK, I2CStop, USBSerial_println,
        scriptDev, World.boot, h0, countSend]

/-- Witness for C12: writing `0x55` to register `0x6B` of the device at `0xD0`. -/
theorem byteWrite_trace_witness :
    (MPU6050_I2C_ByteWrite (scriptDev (fun _ => 0) (fun _ => 0)) 0xD0 (fun _ => 0x55) 0 0x6B
        (World.boot (Script.mk 0 0))).trace
      = [BusEvent.start, BusEvent.send 0xD0, BusEvent.send 0x6B, BusEvent.send 0x55,
         BusEvent.stop] :=
  (byteWrite_trace (fun _ => 0) (fun _ => 0) 0xD0 0x6B (fun _ => 0x55) 0 (by decide)
    (by decide) (by decide) ⟨rfl, rfl, rfl⟩).1

/-- C13: if any of the three addressing sends of `MPU6050_I2C_BufferRead` is not
acknowledged (the `j`-th being the first), the buffer memory after the call is the memory
before the call and no byte has been received. -/
theorem bufferRead_abort_keeps_buffer (ackOf rx : Nat → Nat) (slaveAddr readAddr k : Nat)
    (mem : Nat → Nat) (pBuffer j : Nat) (hj : j < 3) (hpre : ∀ i, i < j → ackOf i = 0)
    (hnack : ackOf j ≠ 0) :
    (MPU6050_I2C_BufferRead (scriptDev ackOf rx) slaveAddr mem pBuffer readAddr k
        (World.boot (Script.mk 0 0))).2 = mem ∧
    countRecv (MPU6050_I2C_BufferRead (scriptDev ackOf rx) slaveAddr mem pBuffer readAddr k
        (World.boot (Script.mk 0 0))).1.trace = 0 := by
  rw [bufferRead_script_abort ackOf rx slaveAddr readAddr k mem pBuffer j hj hpre hnack]
  refine ⟨rfl, ?_⟩
  match j, hj with
  | 0, _ => simp [countRecv]
  | 1, _ => simp [countRecv]
  | 2, _ => simp [countRecv]

/-- Witness for C13: the read-phase address byte is refused; the buffer keeps `0xEE`. -/
theorem bufferRead_abort_keeps_buffer_witness :
    (MPU6050_I2C_BufferRead (scriptDev (fun i => if i = 2 then 1 else 0) (fun _ => 0x11)) 0xD0
        (fun _ => 0xEE) 0 0x3B 14 (World.boot (Script.mk 0 0))).2 = (fun _ => 0xEE) ∧
    countRecv (MPU6050_I2C_BufferRead (scriptDev (fun i => if i = 2 then 1 else 0)
        (fun _ => 0x11)) 0xD0 (fun _ => 0xEE) 0 0x3B 14 (World.boot (Script.mk 0 0))).1.trace
      = 0 :=
  bufferRead_abort_keeps_buffer (fun i => if i = 2 then 1 else 0) (fun _ => 0x11) 0xD0 0x3B 14
    (fun _ => 0xEE) 0 2 (by decide)
    (by intro i hi; show (if i = 2 then 1 else 0) = 0; rw [if_neg (by omega)]) (by decide)


/-- C16: under every acknowledgment pattern `MPU6050_I2C_ByteWrite` issues exactly one stop
signal, and it is the last bus event; for every count `k ≥ 1`, `MPU6050_I2C_BufferRead`
issues exactly one stop signal, whether an addressing send is refused or the read runs to
the end. -/
theorem one_stop_per_transaction (ackOf rx : Nat → Nat) (slaveAddr regAddr k : Nat)
    (mem : Nat → Nat) (pBuffer : Nat) (hk : 1 ≤ k) :
    countStop (MPU6050_I2C_ByteWrite (scriptDev ackOf rx) slaveAddr mem pBuffer regAddr
        (World.boot (Script.mk 0 0))).trace = 1 ∧
    (MPU6050_I2C_ByteWrite (scriptDev ackOf rx) slaveAddr mem pBuffer regAddr
        (World.boot (Script.mk 0 0))).trace.getLast? = some BusEvent.stop ∧
    countStop (MPU6050_I2C_BufferRead (scriptDev ackOf rx) slaveAddr mem pBuffer regAddr k
        (World.boot (Script.mk 0 0))).1.trace = 1 := by
  refine ⟨?_, ?_, ?_⟩
  · by_cases h0 : ackOf 0 = 0 <;> by_cases h1 : ackOf 1 = 0 <;> by_cases h2 : ackOf 2 = 0 <;>
      simp [MPU6050_I2C_ByteWrite, I2CStart, I2CSend, RecivedNACK, I2CStop, USBSerial_println,
        scriptDev, World.boot, h0, h1, h2, countStop]
  · by_cases h0 : ackOf 0 = 0 <;> by_cases h1 : ackOf 1 = 0 <;> by_cases h2 : ackOf 2 = 0 <;>
      simp [MPU6050_I2C_ByteWrite, I2CStart, I2CSend, RecivedNACK, I2CStop, USBSerial_println,
        scriptDev, World.boot, h0, h1, h2]
  · by_cases h0 : ackOf 0 = 0
    · by_cases h1 : ackOf 1 = 0
      · by_cases h2 : ackOf 2 = 0
        · rw [bufferRead_script_acked ackOf rx slaveAddr regAddr k mem pBuffer _ h0 h1 h2]
          dsimp only
          rw [bufferReadLoop_countStop, if_neg (by omega)]
          simp [World.boot, countStop]
        · rw [bufferRead_script_abort ackOf rx slaveAddr regAddr k mem pBuffer 2 (by decide)
            (by intro i hi
                have : i = 0 ∨ i = 1 := by omega
                rcases this with h | h <;> subst h <;> assumption) h2]
          simp [countStop]
      · rw [bufferRead_script_abort ackOf rx slaveAddr regAddr k mem pBuffer 1 (by decide)
          (by intro i hi
              have : i = 0 := by omega
              subst this; assumption) h1]
        simp [countStop]
    · rw [bufferRead_script_abort ackOf rx slaveAddr regAddr k mem pBuffer 0 (by decide)
        (by intro i hi; omega) h0]
      simp [countStop]

/-- Witness for C16: a 14-byte read from a device that acknowledges everything. -/
theorem one_stop_per_transaction_witness :
    countStop (MPU6050_I2C_ByteWrite (scriptDev (fun _ => 0) (fun _ => 0x11)) 0xD0
        (fun _ => 0x55) 0 0x3B (World.boot (Script.mk 0 0))).trace = 1 ∧
    (MPU6050_I2C_ByteWrite (scriptDev (fun _ => 0) (fun _ => 0x11)) 0xD0 (fun _ => 0x55) 0 0x3B
        (World.boot (Script.mk 0 0))).trace.getLast? = some BusEvent.stop ∧
    countStop (MPU6050_I2C_BufferRead (scriptDev (fun _ => 0) (fun _ => 0x11)) 0xD0
        (fun _ => 0x55) 0 0x3B 14 (World.boot (Script.mk 0 0))).1.trace = 1 :=
  one_stop_per_transaction (fun _ => 0) (fun _ => 0x11) 0xD0 0x3B 14 (fun _ => 0x55) 0
    (by decide)

/-! ## Facade: identity, truncation, sleep mode and initialisation -/


theorem fieldOf_eq_extract {msb length : Nat} (x : Nat) (h2 : length ≤ msb + 1) (h3 : msb ≤ 7) :
    (x &&& fieldMask msb length) >>> fieldShift msb length = fieldOf x msb length :=
  extract_field x h2 h3

theorem readBits_script_abort (ackOf rx : Nat → Nat) (a reg bitStart length tmp0 j : Nat)
    (hj : j < 3) (hpre : ∀ i, i < j → ackOf i = 0) (hnack : ackOf j ≠ 0) :
    (MPU6050_ReadBits (scriptDev ackOf rx) a reg bitStart length tmp0
        (World.boot (Script.mk 0 0))).2 =
      (tmp0 &&& fieldMask bitStart length) >>> fieldShift bitStart length := by
  unfold MPU6050_ReadBits
  simp only []
  rw [bufferRead_script_abort ackOf rx a reg 1 _ 0 j hj hpre hnack]

/-- C14 (the code departs from the claim): the device refuses the address byte, so the
identity read fails (the trace is start, send, stop); the stale content `0x68` of `tmp` has
`0x34` in bits 6..1 and `MPU6050_TestConnection` reports a valid connection. -/
theorem testConnection_true_on_failed_read :
    (MPU6050_TestConnection (scriptDev (fun _ => 1) (fun _ => 0)) sampleHeader 0x68
        (World.boot (Script.mk 0 0))).1.trace
      = [BusEvent.start, BusEvent.send 0xD0, BusEvent.stop] ∧
    (MPU6050_TestConnection (scriptDev (fun _ => 1) (fun _ => 0)) sampleHeader 0x68
        (World.boot (Script.mk 0 0))).2 = true := by
  decide

/-- When the identity read fails (the `j`-th addressing send is the first one refused), the
result of `MPU6050_TestConnection` depends on the stale content `tmp0` of `tmp` alone: it is
true exactly when the identity field of `tmp0` equals `0x34`. -/
theorem testConnection_on_failed_read (ackOf rx : Nat → Nat) (h : Header) (tmp0 j : Nat)
    (h1 : 1 ≤ h.MPU6050_WHO_AM_I_LENGTH) (_h8 : h.MPU6050_WHO_AM_I_LENGTH ≤ 8)
    (h2 : h.MPU6050_WHO_AM_I_LENGTH - 1 ≤ h.MPU6050_WHO_AM_I_BIT)
    (h3 : h.MPU6050_WHO_AM_I_BIT ≤ 7)
    (hj : j < 3) (hpre : ∀ i, i < j → ackOf i = 0) (hnack : ackOf j ≠ 0) :
    (MPU6050_TestConnection (scriptDev ackOf rx) h tmp0 (World.boot (Script.mk 0 0))).2
      = decide (fieldOf tmp0 h.MPU6050_WHO_AM_I_BIT h.MPU6050_WHO_AM_I_LENGTH = 0x34) := by
  unfold MPU6050_TestConnection MPU6050_GetDeviceID
  simp only []
  rw [readBits_script_abort ackOf rx _ _ _ _ tmp0 j hj hpre hnack,
    fieldOf_eq_extract tmp0 (by omega) h3]

/-- With stale content 0 the failed identity read gives false. -/
theorem testConnection_on_failed_read_witness :
    (MPU6050_TestConnection (scriptDev (fun _ => 1) (fun _ => 0)) sampleHeader 0
        (World.boot (Script.mk 0 0))).2 = false :=
  testConnection_on_failed_read (fun _ => 1) (fun _ => 0) sampleHeader 0 0
    (by decide) (by decide) (by decide) (by decide) (by decide) (by intro i hi; omega)
    (by decide)

/-- C17: against the register file that acknowledges every byte, for every register
content, every descriptor with `1 ≤ length ≤ 8` and `length - 1 ≤ msb ≤ 7` and every 8-bit
value `v`, `MPU6050_WriteBits` followed by `MPU6050_ReadBits` returns `v % 2 ^ length`, and
the bits of the register outside the run are those it had before.  The bus address byte is
even (write direction), as the device requires. -/
theorem writeBits_readBits_truncates (regs : Nat → Nat)
    (ptr slaveAddr regAddr msb length v : Nat) (tmpW tmpR : Nat) (hA : slaveAddr < 256)
    (hE : slaveAddr % 2 = 0) (hR : regAddr < 256) (hreg : regs regAddr < 256)
    (h1 : 1 ≤ length) (_h8 : length ≤ 8) (h2 : length - 1 ≤ msb) (h3 : msb ≤ 7)
    (_hv : v < 256) :
    (MPU6050_ReadBits regDev slaveAddr regAddr msb length tmpR
      (MPU6050_WriteBits regDev slaveAddr regAddr msb length v tmpW
        (World.boot (RegFile.mk regs ptr Phase.idle 0)))).2 = v % 2 ^ length ∧
    ∀ i, (i < msb + 1 - length ∨ msb < i) →
      ((MPU6050_WriteBits regDev slaveAddr regAddr msb length v tmpW
        (World.boot (RegFile.mk regs ptr Phase.idle 0))).dev.regs regAddr).testBit i
        = (regs regAddr).testBit i := by
  have hfit : length ≤ msb + 1 := by omega
  unfold World.boot
  rw [writeBits_regDev _ rfl _ _ _ _ _ _ hA hE hR, readBits_regDev _ rfl _ _ _ _ _ hA hE hR]
  simp only [Function.update_same]
  constructor
  · rw [Nat.mod_eq_of_lt (inject_field_lt _ _ _ _),
      extract_inject_field _ _ (Nat.mod_lt _ (by norm_num)) hfit h3]
  · intro i hi
    rw [Nat.mod_eq_of_lt hreg, testBit_inject_field _ v i hreg hfit h3, if_neg (by omega)]

/-- Witness for C17: `0xFF` written into a three-bit field reads back as 7 and leaves the
other bits of `0b10100011` alone. -/
theorem writeBits_readBits_truncates_witness :
    (MPU6050_ReadBits regDev 0xD0 0x6B 4 3 0
      (MPU6050_WriteBits regDev 0xD0 0x6B 4 3 0xFF 0
        (World.boot (RegFile.mk (fun _ => 0b10100011) 0 Phase.idle 0)))).2 = 0xFF % 2 ^ 3 ∧
    (MPU6050_WriteBits regDev 0xD0 0x6B 4 3 0xFF 0
        (World.boot (RegFile.mk (fun _ => 0b10100011) 0 Phase.idle 0))).dev.regs 0x6B
      = 0b10111111 :=
  ⟨(writeBits_readBits_truncates (fun _ => 0b10100011) 0 0xD0 0x6B 4 3 0xFF 0 0
    (by decide) (by decide) (by decide) (by decide) (by decide) (by decide) (by decide)
    (by decide) (by decide)).1, by decide⟩


theorem writeBit_regDev (s : RegFile) (hb : s.busy = 0) (a reg bitNum data tmp0 : Nat)
    (hA : a < 256) (hE : a % 2 = 0) (hR : reg < 256) (t : List BusEvent) (l : List String) :
    MPU6050_WriteBit regDev a reg bitNum data tmp0 (World.mk s t l) =
      World.mk (RegFile.mk (Function.update s.regs reg
          (if data ≠ 0 then (s.regs reg % 256 ||| (1 <<< bitNum)) % 256
            else (s.regs reg % 256 &&& intNot (1 <<< bitNum)) % 256))
          ((reg + 1) % 256) Phase.idle 0)
        (t ++ rmwTrace a reg (s.regs reg % 256)
          (if data ≠ 0 then (s.regs reg % 256 ||| (1 <<< bitNum)) % 256
            else (s.regs reg % 256 &&& intNot (1 <<< bitNum)) % 256)) l := by
  unfold MPU6050_WriteBit
  simp only []
  rw [regDev_readByte s hb a reg hA hE hR, regDev_byteWrite _ rfl a reg hA hE hR]
  by_cases hd : data = 0 <;> simp [rmwTrace, hd]

theorem readBit_regDev (s : RegFile) (hb : s.busy = 0) (a reg bitNum tmp0 : Nat)
    (hA : a < 256) (hE : a % 2 = 0) (hR : reg < 256) (t : List BusEvent) (l : List String) :
    (MPU6050_ReadBit regDev a reg bitNum tmp0 (World.mk s t l)).2 =
      (s.regs reg % 256 &&& (1 <<< bitNum)) % 256 := by
  unfold MPU6050_ReadBit
  simp only []
  rw [regDev_readByte s hb a reg hA hE hR]
  simp

/-- The byte stored by `MPU6050_ReadBit` is nonzero exactly when the bit is set. -/
theorem readBit_byte_of_testBit (x n : Nat) (hn : n ≤ 7) :
    (x &&& (1 <<< n)) % 256 = 2 ^ n * (if x.testBit n then 1 else 0) := by
  rw [readBit_byte_eq x n hn]
  have hbit : x.testBit n = decide (x / 2 ^ n % 2 = 1) := Nat.testBit_to_div_mod
  rcases Nat.mod_two_eq_zero_or_one (x / 2 ^ n) with h | h
  · rw [hbit, h]; simp
  · rw [hbit, h]; simp

/-- C18: against the register file that acknowledges every byte, for every content of the
power-management register, every sleep-bit position `0..7` and every boolean `b`,
`MPU6050_SetSleepModeStatus b` followed by `MPU6050_GetSleepModeStatus` returns `b`, while
`MPU6050_ReadBit` on the same state stores the unshifted byte `2 ^ n` or 0. -/
theorem sleepMode_roundtrip (h : Header) (regs : Nat → Nat) (ptr tmpW tmpR : Nat) (b : Bool)
    (hA : h.MPU6050_DEFAULT_ADDRESS < 256) (hE : h.MPU6050_DEFAULT_ADDRESS % 2 = 0)
    (hR : h.MPU6050_RA_PWR_MGMT_1 < 256) (hn : h.MPU6050_PWR1_SLEEP_BIT ≤ 7) :
    (MPU6050_GetSleepModeStatus regDev h tmpR
      (MPU6050_SetSleepModeStatus regDev h b tmpW
        (World.boot (RegFile.mk regs ptr Phase.idle 0)))).2 = b ∧
    (MPU6050_ReadBit regDev h.MPU6050_DEFAULT_ADDRESS h.MPU6050_RA_PWR_MGMT_1
      h.MPU6050_PWR1_SLEEP_BIT tmpR
      (MPU6050_SetSleepModeStatus regDev h b tmpW
        (World.boot (RegFile.mk regs ptr Phase.idle 0)))).2
      = 2 ^ h.MPU6050_PWR1_SLEEP_BIT * (if b then 1 else 0) := by
  have hread : (MPU6050_ReadBit regDev h.MPU6050_DEFAULT_ADDRESS h.MPU6050_RA_PWR_MGMT_1
      h.MPU6050_PWR1_SLEEP_BIT tmpR
      (MPU6050_SetSleepModeStatus regDev h b tmpW
        (World.boot (RegFile.mk regs ptr Phase.idle 0)))).2
      = 2 ^ h.MPU6050_PWR1_SLEEP_BIT * (if b then 1 else 0) := by
    unfold MPU6050_SetSleepModeStatus World.boot
    rw [writeBit_regDev _ rfl _ _ _ _ _ hA hE hR, readBit_regDev _ rfl _ _ _ _ hA hE hR]
    simp only [Function.update_same]
    rw [Nat.mod_eq_of_lt (writeBit_byte_lt _ _ _), readBit_byte_of_testBit _ _ hn,
      testBit_writeBit_byte _ _ _ _ (Nat.mod_lt _ (by norm_num)) hn, if_pos rfl]
    cases b <;> simp
  refine ⟨?_, hread⟩
  unfold MPU6050_GetSleepModeStatus
  simp only []
  rw [hread]
  cases b
  · simp
  · simp

/-- Witness for C18: setting the sleep bit (bit 6) of an all-zero register reads back as
true, and `MPU6050_ReadBit` stores 64, not 1. -/
theorem sleepMode_roundtrip_witness :
    (MPU6050_GetSleepModeStatus regDev sampleHeader 0
      (MPU6050_SetSleepModeStatus regDev sampleHeader true 0
        (World.boot (RegFile.mk (fun _ => 0) 0 Phase.idle 0)))).2 = true ∧
    (MPU6050_ReadBit regDev sampleHeader.MPU6050_DEFAULT_ADDRESS
      sampleHeader.MPU6050_RA_PWR_MGMT_1 sampleHeader.MPU6050_PWR1_SLEEP_BIT 0
      (MPU6050_SetSleepModeStatus regDev sampleHeader true 0
        (World.boot (RegFile.mk (fun _ => 0) 0 Phase.idle 0)))).2
      = 2 ^ sampleHeader.MPU6050_PWR1_SLEEP_BIT * (if true then 1 else 0) :=
  sleepMode_roundtrip sampleHeader (fun _ => 0) 0 0 0 true (by decide) (by decide) (by decide)
    (by decide)


theorem testBit_fieldOf (x msb length i : Nat) :
    (fieldOf x msb length).testBit i
      = (decide (i < length) && x.testBit (msb + 1 - length + i)) := by
  unfold fieldOf
  rw [Nat.testBit_mod_two_pow, ← Nat.shiftRight_eq_div_pow, Nat.testBit_shiftRight]

theorem fieldOf_congr {x y msb length : Nat} (h2 : length ≤ msb + 1)
    (h : ∀ i, msb + 1 - length ≤ i → i ≤ msb → x.testBit i = y.testBit i) :
    fieldOf x msb length = fieldOf y msb length := by
  apply Nat.eq_of_testBit_eq
  intro i
  rw [testBit_fieldOf, testBit_fieldOf]
  by_cases hi : i < length
  · rw [h _ (by omega) (by omega)]
  · rw [decide_eq_false hi, Bool.false_and, Bool.false_and]

/-- One `MPU6050_WriteBits` on the acknowledging register file, as a read-modify-write. -/
theorem writeBits_regDev_step (s : RegFile) (hb : s.busy = 0)
    (a reg msb length v tmp0 : Nat) (hA : a < 256) (hE : a % 2 = 0) (hR : reg < 256)
    (h1 : 1 ≤ length) (h2 : length - 1 ≤ msb) (h3 : msb ≤ 7) (hv : v < 2 ^ length)
    (t : List BusEvent) (l : List String) :
    ∃ x, x < 256 ∧ fieldOf x msb length = v ∧
      (∀ i, (i < msb + 1 - length ∨ msb < i) → x.testBit i = (s.regs reg % 256).testBit i) ∧
      MPU6050_WriteBits regDev a reg msb length v tmp0 (World.mk s t l) =
        World.mk (RegFile.mk (Function.update s.regs reg x) ((reg + 1) % 256) Phase.idle 0)
          (t ++ rmwTrace a reg (s.regs reg % 256) x) l := by
  have hfit : length ≤ msb + 1 := by omega
  have hr : s.regs reg % 256 < 256 := Nat.mod_lt _ (by norm_num)
  refine ⟨(s.regs reg % 256 &&& intNot (fieldMask msb length)) % 256 |||
    ((v <<< fieldShift msb length) % 256 &&& fieldMask msb length), inject_field_lt _ _ _ _,
    ?_, ?_, ?_⟩
  · rw [← fieldOf_eq_extract _ hfit h3,
      extract_inject_field _ _ hr hfit h3, Nat.mod_eq_of_lt hv]
  · intro i hi
    rw [testBit_inject_field _ v i hr hfit h3, if_neg (by omega)]
  · rw [writeBits_regDev s hb a reg msb length v tmp0 hA hE hR]
    rfl

/-- One `MPU6050_WriteBit` on the acknowledging register file, as a read-modify-write. -/
theorem writeBit_regDev_step (s : RegFile) (hb : s.busy = 0)
    (a reg n data tmp0 : Nat) (hA : a < 256) (hE : a % 2 = 0) (hR : reg < 256) (hn : n ≤ 7)
    (t : List BusEvent) (l : List String) :
    ∃ x, x < 256 ∧ x.testBit n = decide (data ≠ 0) ∧
      (∀ i, i ≠ n → x.testBit i = (s.regs reg % 256).testBit i) ∧
      MPU6050_WriteBit regDev a reg n data tmp0 (World.mk s t l) =
        World.mk (RegFile.mk (Function.update s.regs reg x) ((reg + 1) % 256) Phase.idle 0)
          (t ++ rmwTrace a reg (s.regs reg % 256) x) l := by
  have hr : s.regs reg % 256 < 256 := Nat.mod_lt _ (by norm_num)
  refine ⟨_, writeBit_byte_lt (s.regs reg % 256) n data, ?_, ?_,
    writeBit_regDev s hb a reg n data tmp0 hA hE hR t l⟩
  · rw [testBit_writeBit_byte _ n data n hr hn, if_pos rfl]
  · intro i hi
    rw [testBit_writeBit_byte _ n data i hr hn, if_neg hi]

/-- C15: on the register file that acknowledges every byte, `MPU6050_Initialize` performs
four read-modify-write operations, in this order.  (1) The power-management register is
read and `x1` written back: its clock-select field is the gyro-X PLL value, its other bits
are those read.  (2) The gyro configuration register is read and `x2` written back: its
full-scale field is the most sensitive gyro value, its other bits are those read.  (3) The
same for the accel configuration register, `x3` and the most sensitive accel value.  (4)
The power-management register is read again (it holds `x1`) and `x4` written back: the sleep
bit is 0, the other bits are those of `x1`.  Afterwards the three registers hold `x4`,
`x2`, `x3`, every other register is untouched, and, the sleep bit lying outside the
clock-select field, the clock-select field of the power-management register is still the
gyro-X PLL value, whatever the registers held before. -/
theorem initialize_sequence (h : Header) (regs stale : Nat → Nat) (ptr : Nat)
    (hwf : h.WellFormed) (hbytes : ∀ r, regs r < 256)
    (hout : h.MPU6050_PWR1_SLEEP_BIT < h.MPU6050_PWR1_CLKSEL_BIT + 1 - h.MPU6050_PWR1_CLKSEL_LENGTH
      ∨ h.MPU6050_PWR1_CLKSEL_BIT < h.MPU6050_PWR1_SLEEP_BIT) :
    ∃ x1 x2 x3 x4,
      (MPU6050_Initialize regDev h stale (World.boot (RegFile.mk regs ptr Phase.idle 0))).trace
        = rmwTrace h.MPU6050_DEFAULT_ADDRESS h.MPU6050_RA_PWR_MGMT_1
            (regs h.MPU6050_RA_PWR_MGMT_1) x1 ++
          rmwTrace h.MPU6050_DEFAULT_ADDRESS h.MPU6050_RA_GYRO_CONFIG
            (regs h.MPU6050_RA_GYRO_CONFIG) x2 ++
          rmwTrace h.MPU6050_DEFAULT_ADDRESS h.MPU6050_RA_ACCEL_CONFIG
            (regs h.MPU6050_RA_ACCEL_CONFIG) x3 ++
          rmwTrace h.MPU6050_DEFAULT_ADDRESS h.MPU6050_RA_PWR_MGMT_1 x1 x4 ∧
      (fieldOf x1 h.MPU6050_PWR1_CLKSEL_BIT h.MPU6050_PWR1_CLKSEL_LENGTH
          = h.MPU6050_CLOCK_PLL_XGYRO ∧
        ∀ i, (i < h.MPU6050_PWR1_CLKSEL_BIT + 1 - h.MPU6050_PWR1_CLKSEL_LENGTH
            ∨ h.MPU6050_PWR1_CLKSEL_BIT < i) →
          x1.testBit i = (regs h.MPU6050_RA_PWR_MGMT_1).testBit i) ∧
      (fieldOf x2 h.MPU6050_GCONFIG_FS_SEL_BIT h.MPU6050_GCONFIG_FS_SEL_LENGTH
          = h.MPU6050_GYRO_FS_250 ∧
        ∀ i, (i < h.MPU6050_GCONFIG_FS_SEL_BIT + 1 - h.MPU6050_GCONFIG_FS_SEL_LENGTH
            ∨ h.MPU6050_GCONFIG_FS_SEL_BIT < i) →
          x2.testBit i = (regs h.MPU6050_RA_GYRO_CONFIG).testBit i) ∧
      (fieldOf x3 h.MPU6050_ACONFIG_AFS_SEL_BIT h.MPU6050_ACONFIG_AFS_SEL_LENGTH
          = h.MPU6050_ACCEL_FS_2 ∧
        ∀ i, (i < h.MPU6050_ACONFIG_AFS_SEL_BIT + 1 - h.MPU6050_ACONFIG_AFS_SEL_LENGTH
            ∨ h.MPU6050_ACONFIG_AFS_SEL_BIT < i) →
          x3.testBit i = (regs h.MPU6050_RA_ACCEL_CONFIG).testBit i) ∧
      (x4.testBit h.MPU6050_PWR1_SLEEP_BIT = false ∧
        ∀ i, i ≠ h.MPU6050_PWR1_SLEEP_BIT → x4.testBit i = x1.testBit i) ∧
      ((MPU6050_Initialize regDev h stale
          (World.boot (RegFile.mk regs ptr Phase.idle 0))).dev.regs h.MPU6050_RA_PWR_MGMT_1 = x4 ∧
        (MPU6050_Initialize regDev h stale
          (World.boot (RegFile.mk regs ptr Phase.idle 0))).dev.regs h.MPU6050_RA_GYRO_CONFIG = x2 ∧
        (MPU6050_Initialize regDev h stale
          (World.boot (RegFile.mk regs ptr Phase.idle 0))).dev.regs h.MPU6050_RA_ACCEL_CONFIG = x3 ∧
        ∀ r, r ≠ h.MPU6050_RA_PWR_MGMT_1 → r ≠ h.MPU6050_RA_GYRO_CONFIG →
          r ≠ h.MPU6050_RA_ACCEL_CONFIG →
          (MPU6050_Initialize regDev h stale
            (World.boot (RegFile.mk regs ptr Phase.idle 0))).dev.regs r = regs r) ∧
      fieldOf x4 h.MPU6050_PWR1_CLKSEL_BIT h.MPU6050_PWR1_CLKSEL_LENGTH
        = h.MPU6050_CLOCK_PLL_XGYRO := by
  obtain ⟨hA, hE, hP, hG, hAc, ⟨c1, c2, c3, c4⟩, ⟨g1, g2, g3, g4⟩, ⟨a1, a2, a3, a4⟩, hS, hGP,
    hAP, hAG⟩ := hwf
  unfold MPU6050_Initialize MPU6050_SetClockSource MPU6050_SetFullScaleGyroRange
    MPU6050_SetFullScaleAccelRange MPU6050_SetSleepModeStatus World.boot
  simp only []
  obtain ⟨x1, hx1, f1, o1, e1⟩ := writeBits_regDev_step (RegFile.mk regs ptr Phase.idle 0) rfl
    h.MPU6050_DEFAULT_ADDRESS h.MPU6050_RA_PWR_MGMT_1 h.MPU6050_PWR1_CLKSEL_BIT
    h.MPU6050_PWR1_CLKSEL_LENGTH h.MPU6050_CLOCK_PLL_XGYRO (stale 0) hA hE hP c1 c2 c3 c4 [] []
  rw [e1]
  obtain ⟨x2, _, f2, o2, e2⟩ := writeBits_regDev_step
    (RegFile.mk (Function.update regs h.MPU6050_RA_PWR_MGMT_1 x1)
      ((h.MPU6050_RA_PWR_MGMT_1 + 1) % 256) Phase.idle 0) rfl
    h.MPU6050_DEFAULT_ADDRESS h.MPU6050_RA_GYRO_CONFIG h.MPU6050_GCONFIG_FS_SEL_BIT
    h.MPU6050_GCONFIG_FS_SEL_LENGTH h.MPU6050_GYRO_FS_250 (stale 1) hA hE hG g1 g2 g3 g4
    ([] ++ rmwTrace h.MPU6050_DEFAULT_ADDRESS h.MPU6050_RA_PWR_MGMT_1
      ((RegFile.mk regs ptr Phase.idle 0).regs h.MPU6050_RA_PWR_MGMT_1 % 256) x1) []
  rw [e2]
  obtain ⟨x3, _, f3, o3, e3⟩ := writeBits_regDev_step
    (RegFile.mk (Function.update (Function.update regs h.MPU6050_RA_PWR_MGMT_1 x1)
      h.MPU6050_RA_GYRO_CONFIG x2) ((h.MPU6050_RA_GYRO_CONFIG + 1) % 256) Phase.idle 0) rfl
    h.MPU6050_DEFAULT_ADDRESS h.MPU6050_RA_ACCEL_CONFIG h.MPU6050_ACONFIG_AFS_SEL_BIT
    h.MPU6050_ACONFIG_AFS_SEL_LENGTH h.MPU6050_ACCEL_FS_2 (stale 2) hA hE hAc a1 a2 a3 a4
    ([] ++ rmwTrace h.MPU6050_DEFAULT_ADDRESS h.MPU6050_RA_PWR_MGMT_1
        ((RegFile.mk regs ptr Phase.idle 0).regs h.MPU6050_RA_PWR_MGMT_1 % 256) x1 ++
      rmwTrace h.MPU6050_DEFAULT_ADDRESS h.MPU6050_RA_GYRO_CONFIG
        ((RegFile.mk (Function.update regs h.MPU6050_RA_PWR_MGMT_1 x1)
          ((h.MPU6050_RA_PWR_MGMT_1 + 1) % 256) Phase.idle 0).regs
            h.MPU6050_RA_GYRO_CONFIG % 256) x2) []
  rw [e3]
  obtain ⟨x4, _, b4, o4, e4⟩ := writeBit_regDev_step
    (RegFile.mk (Function.update (Function.update (Function.update regs
      h.MPU6050_RA_PWR_MGMT_1 x1) h.MPU6050_RA_GYRO_CONFIG x2) h.MPU6050_RA_ACCEL_CONFIG x3)
      ((h.MPU6050_RA_ACCEL_CONFIG + 1) % 256) Phase.idle 0) rfl
    h.MPU6050_DEFAULT_ADDRESS h.MPU6050_RA_PWR_MGMT_1 h.MPU6050_PWR1_SLEEP_BIT
    (if false = true then 1 else 0) (stale 3) hA hE hP hS
    ([] ++ rmwTrace h.MPU6050_DEFAULT_ADDRESS h.MPU6050_RA_PWR_MGMT_1
        ((RegFile.mk regs ptr Phase.idle 0).regs h.MPU6050_RA_PWR_MGMT_1 % 256) x1 ++
      rmwTrace h.MPU6050_DEFAULT_ADDRESS h.MPU6050_RA_GYRO_CONFIG
        ((RegFile.mk (Function.update regs h.MPU6050_RA_PWR_MGMT_1 x1)
          ((h.MPU6050_RA_PWR_MGMT_1 + 1) % 256) Phase.idle 0).regs
            h.MPU6050_RA_GYRO_CONFIG % 256) x2 ++
      rmwTrace h.MPU6050_DEFAULT_ADDRESS h.MPU6050_RA_ACCEL_CONFIG
        ((RegFile.mk (Function.update (Function.update regs h.MPU6050_RA_PWR_MGMT_1 x1)
          h.MPU6050_RA_GYRO_CONFIG x2) ((h.MPU6050_RA_GYRO_CONFIG + 1) % 256) Phase.idle 0).regs
            h.MPU6050_RA_ACCEL_CONFIG % 256) x3) []
  rw [e4]
  have hr1 : regs h.MPU6050_RA_PWR_MGMT_1 % 256 = regs h.MPU6050_RA_PWR_MGMT_1 :=
    Nat.mod_eq_of_lt (hbytes _)
  have hr2 : Function.update regs h.MPU6050_RA_PWR_MGMT_1 x1 h.MPU6050_RA_GYRO_CONFIG % 256
      = regs h.MPU6050_RA_GYRO_CONFIG := by
    rw [Function.update_noteq hGP, Nat.mod_eq_of_lt (hbytes _)]
  have hr3 : Function.update (Function.update regs h.MPU6050_RA_PWR_MGMT_1 x1)
      h.MPU6050_RA_GYRO_CONFIG x2 h.MPU6050_RA_ACCEL_CONFIG % 256
      = regs h.MPU6050_RA_ACCEL_CONFIG := by
    rw [Function.update_noteq hAG, Function.update_noteq hAP, Nat.mod_eq_of_lt (hbytes _)]
  have hr4 : (Function.update (Function.update (Function.update regs h.MPU6050_RA_PWR_MGMT_1 x1)
      h.MPU6050_RA_GYRO_CONFIG x2) h.MPU6050_RA_ACCEL_CONFIG x3) h.MPU6050_RA_PWR_MGMT_1 % 256
      = x1 := by
    rw [Function.update_noteq (Ne.symm hAP), Function.update_noteq (Ne.symm hGP),
      Function.update_same, Nat.mod_eq_of_lt hx1]
  dsimp only at o1 o2 o3 o4 ⊢
  rw [hr1] at o1
  rw [hr2] at o2
  rw [hr3] at o3
  rw [hr4] at o4
  refine ⟨x1, x2, x3, x4, ?_, ⟨f1, o1⟩, ⟨f2, o2⟩, ⟨f3, o3⟩, ⟨by rw [b4]; simp, o4⟩,
    ⟨?_, ?_, ?_, ?_⟩, ?_⟩
  · rw [hr1, hr2, hr3, hr4, List.nil_append]
  · rw [Function.update_same]
  · rw [Function.update_noteq hGP, Function.update_noteq (Ne.symm hAG), Function.update_same]
  · rw [Function.update_noteq hAP, Function.update_same]
  · intro r hrP hrG hrA
    rw [Function.update_noteq hrP, Function.update_noteq hrA, Function.update_noteq hrG,
      Function.update_noteq hrP]
  · rw [← f1]
    apply fieldOf_congr (by omega)
    intro i hi1 hi2
    exact o4 i (by omega)

/-- Witness for C15: with the sample header and the registers `0x6B`, `0x1B`, `0x1C` at
`0x40`, `0x18`, `0xF8`, the three registers end up as `0x01`, `0x00`, `0xE0`: sleep bit
cleared, clock-select field at 1, both full-scale fields at 0, every other bit kept. -/
theorem initialize_sequence_witness :
    (∃ x4,
      (MPU6050_Initialize regDev sampleHeader (fun _ => 0)
        (World.boot (RegFile.mk
          (fun r => if r = 0x6B then 0x40 else if r = 0x1B then 0x18 else
            if r = 0x1C then 0xF8 else 0) 0 Phase.idle 0))).dev.regs 0x6B = x4 ∧
      x4.testBit 6 = false ∧ fieldOf x4 2 3 = 1) ∧
    (MPU6050_Initialize regDev sampleHeader (fun _ => 0)
        (World.boot (RegFile.mk
          (fun r => if r = 0x6B then 0x40 else if r = 0x1B then 0x18 else
            if r = 0x1C then 0xF8 else 0) 0 Phase.idle 0))).dev.regs 0x6B = 0x01 ∧
    (MPU6050_Initialize regDev sampleHeader (fun _ => 0)
        (World.boot (RegFile.mk
          (fun r => if r = 0x6B then 0x40 else if r = 0x1B then 0x18 else
            if r = 0x1C then 0xF8 else 0) 0 Phase.idle 0))).dev.regs 0x1B = 0x00 ∧
    (MPU6050_Initialize regDev sampleHeader (fun _ => 0)
        (World.boot (RegFile.mk
          (fun r => if r = 0x6B then 0x40 else if r = 0x1B then 0x18 else
            if r = 0x1C then 0xF8 else 0) 0 Phase.idle 0))).dev.regs 0x1C = 0xE0 := by
  obtain ⟨_, _, _, x4, _, _, _, _, ⟨b4, _⟩, ⟨e4, _⟩, f4⟩ :=
    initialize_sequence sampleHeader
      (fun r => if r = 0x6B then 0x40 else if r = 0x1B then 0x18 else
        if r = 0x1C then 0xF8 else 0) (fun _ => 0) 0
      (by unfold Header.WellFormed sampleHeader; decide)
      (by intro r; dsimp only; split_ifs <;> decide) (by decide)
  exact ⟨⟨x4, e4, b4, f4⟩, by decide, by decide, by decide⟩

end MPU6050
